import Mathlib

/-!
Verification of the warden MCP server (`src/server.js`) against its
natural-language specification.

The development shallowly embeds the command-execution and
result-normalization core of the server:

* `executeCommand` — the Process Runner promise semantics, modelled as a
  function over the ordered list of child-process events (stdout data,
  stderr data, close, error), mirroring `server.js` lines 971-1002.
* `parseEnvironmentList` — the environment-list text parser
  (`server.js` lines 429-483), including JS `trim`, ANSI-escape
  stripping, and the two line regexes, modelled character-exactly over
  `List Char`.
* the tool formatters (`startProject`, `runDbQuery`, `runComposer`,
  `runUnitTests`, `initProject`, …) — modelled as pure functions
  parameterized by an abstract path resolver `res` (JS `path.resolve`),
  a filesystem predicate `fs` (JS `existsSync`), and a Process-Runner
  stub `stub`; each returns its outcome (a response envelope or a thrown
  error) together with the ordered list of external-process invocations
  it performed.

Strings manipulated character-by-character in the source (the parser and
the `.env` updater) are represented as `List Char`; strings that are only
concatenated or compared are `String`.  Machine details out of scope for
the claims (Unicode case mapping beyond ASCII, ` `-class whitespace)
are modelled by their ASCII cores, noted at each definition.
-/

namespace Warden

/-! ## JS character classes (ASCII core) -/

/-- JS whitespace (`\s`, `String.prototype.trim`), ASCII core:
space, tab, newline, carriage return, vertical tab, form feed. -/
def isWsChar (c : Char) : Bool :=
  c = ' ' || c = '\t' || c = '\n' || c = '\r' || c = '\x0b' || c = '\x0c'

/-- JS word character `\w`: ASCII alphanumeric or underscore. -/
def isWordChar (c : Char) : Bool :=
  c.isAlphanum || c = '_'

/-! ## Line splitting and joining (JS `split("\n")` and its inverse) -/

/-- JS `text.split("\n")`: every occurrence of a newline separates, empty
pieces are kept, and the empty text yields one empty piece. -/
def splitNL : List Char → List (List Char)
  | [] => [[]]
  | c :: rest =>
    if c = '\n' then [] :: splitNL rest
    else
      match splitNL rest with
      | [] => [[c]]
      | l :: ls => (c :: l) :: ls

/-- Join lines with newline separators (inverse of `splitNL` on
newline-free lines). -/
def joinNL : List (List Char) → List Char
  | [] => []
  | [l] => l
  | l :: ls => l ++ '\n' :: joinNL ls

/-! ## JS `trim`, `includes`, ANSI stripping -/

/-- JS `s.trim()` on a character list (ASCII whitespace core). -/
def trimChars (l : List Char) : List Char :=
  ((l.dropWhile isWsChar).reverse.dropWhile isWsChar).reverse

/-- JS `hay.includes(needle)`: substring containment. -/
def containsSub (needle : List Char) : List Char → Bool
  | [] => needle.isEmpty
  | c :: rest => needle.isPrefixOf (c :: rest) || containsSub needle rest

/-- A parameter character of an ANSI SGR escape sequence: digit or `;`. -/
def isAnsiParam (c : Char) : Bool :=
  c.isDigit || c = ';'

/-- After an ESC character, try to consume `[` `[0-9;]*` `m` (the body of
one match of the JS regex `\x1b\[[0-9;]*m`); return the rest on success. -/
def ansiSkip : List Char → Option (List Char)
  | '[' :: rest =>
    match rest.dropWhile isAnsiParam with
    | 'm' :: rest' => some rest'
    | _ => none
  | _ => none

/-- Fueled worker for `ansiStrip`; fuel is an upper bound on the input
length, so the recursion is structural and kernel-reducible. -/
def ansiStripAux : Nat → List Char → List Char
  | 0, _ => []
  | _ + 1, [] => []
  | fuel + 1, c :: rest =>
    if c = '\x1b' then
      match ansiSkip rest with
      | some rest' => ansiStripAux fuel rest'
      | none => c :: ansiStripAux fuel rest
    else c :: ansiStripAux fuel rest

/-- JS `line.replace(/\x1b\[[0-9;]*m/g, "")`: remove every ANSI SGR
escape sequence, scanning left to right. -/
def ansiStrip (l : List Char) : List Char :=
  ansiStripAux l.length l

/-! ## The two line regexes of `parseEnvironmentList` -/

/-- Matcher for the JS regex `^\s*(\w+)\s+a\s+\w+\s+project$`
(`server.js` line 452), returning the captured project name.  The
character classes `\w` and `\s` are disjoint and the literals start with
non-class characters, so greedy matching with no backtracking is exact. -/
def nameLineMatch (l : List Char) : Option (List Char) :=
  let l1 := l.dropWhile isWsChar
  let nm := l1.takeWhile isWordChar
  let l2 := l1.dropWhile isWordChar
  if nm.isEmpty then none
  else if (l2.takeWhile isWsChar).isEmpty then none
  else
    match l2.dropWhile isWsChar with
    | 'a' :: l4 =>
      if (l4.takeWhile isWsChar).isEmpty then none
      else
        let l5 := l4.dropWhile isWsChar
        let w2 := l5.takeWhile isWordChar
        let l6 := l5.dropWhile isWordChar
        if w2.isEmpty then none
        else if (l6.takeWhile isWsChar).isEmpty then none
        else if l6.dropWhile isWsChar = ['p', 'r', 'o', 'j', 'e', 'c', 't'] then some nm
        else none
    | _ => none

/-- The literal of the directory-line regex. -/
def dirLit : List Char := "Project Directory:".data

/-- Matcher for the JS regex `^\s*Project Directory:\s*(.+)$`
(`server.js` line 459), returning the captured remainder.  `.` matches
neither `\n` nor `\r`; when the remainder is all whitespace the greedy
`\s*` backtracks one character so `(.+)` captures exactly the last one. -/
def dirLineMatch (l : List Char) : Option (List Char) :=
  let l1 := l.dropWhile isWsChar
  if dirLit.isPrefixOf l1 then
    let rest := l1.drop dirLit.length
    let cap := rest.dropWhile isWsChar
    if cap.isEmpty then
      match rest.getLast? with
      | some c => if c = '\r' || c = '\n' then none else some [c]
      | none => none
    else if cap.contains '\r' || cap.contains '\n' then none
    else some cap
  else none

/-! ## parseEnvironmentList (`server.js` lines 429-483) -/

/-- One parsed environment (`{name, path, raw}` record pushed at
`server.js` line 464). -/
structure EnvRecord where
  name : List Char
  path : List Char
  raw : List Char
deriving DecidableEq, Repr

/-- Banner fragment skipped by the parser. -/
def banner1 : List Char := "No running environments found".data

/-- Banner fragment skipped by the parser. -/
def banner2 : List Char := "Found the following".data

/-- The loop body of `parseEnvironmentList`: a line-classification state
machine carrying the pending project name (`currentProject`).  Order of
checks follows the source: skip blank/banner lines (checked on the
trimmed line, before ANSI stripping), then the name pattern, then the
directory pattern guarded by a pending name; everything else is ignored. -/
def parseLines : List (List Char) → Option (List Char) → List EnvRecord
  | [], _ => []
  | line :: rest, cur =>
    let trimmed := trimChars line
    if trimmed.isEmpty || containsSub banner1 trimmed || containsSub banner2 trimmed then
      parseLines rest cur
    else
      let clean := ansiStrip trimmed
      match nameLineMatch clean with
      | some nm => parseLines rest (some nm)
      | none =>
        match dirLineMatch clean with
        | some cap =>
          match cur with
          | some nm => ⟨nm, cap, line⟩ :: parseLines rest none
          | none => parseLines rest cur
        | none => parseLines rest cur

/-- `parseEnvironmentList(output)`: split on newlines and run the state
machine with no pending project name. -/
def parseEnvironmentList (output : List Char) : List EnvRecord :=
  parseLines (splitNL output) none

/-! ## The Process Runner (`executeCommand`, `server.js` lines 971-1002)

The promise created by `executeCommand` is driven by the child process's
events.  We model one execution as the ordered list of events the child
emits; the promise settles at the first `close` (resolve) or `error`
(reject), accumulating the two output streams until then. -/

/-- One child-process event: a stdout chunk, a stderr chunk, the `close`
event (exit code, or `none` when the process was killed by a signal —
Node passes `null` then), or the `error` event (spawn failure). -/
inductive PEvent
  | out (s : String)
  | err (s : String)
  | close (code : Option Int)
  | error (msg : String)
deriving DecidableEq, Repr

/-- The `{stdout, stderr, code}` record `executeCommand` resolves with. -/
structure CloseResult where
  stdout : String
  stderr : String
  code : Option Int
deriving DecidableEq, Repr

/-- The enriched rejection: `Failed to spawn command: …` with the partial
output captured before the failure attached (`server.js` lines 993-999). -/
structure SpawnRejection where
  msg : String
  stdout : String
  stderr : String
deriving DecidableEq, Repr

/-- The state of the promise after the event list has been consumed. -/
inductive ExecOutcome
  | resolved (r : CloseResult)
  | rejected (e : SpawnRejection)
  | pending (stdout stderr : String)
deriving DecidableEq, Repr

/-- Worker: consume events in order, accumulating stdout and stderr as two
independent append-only buffers; the first `close` resolves and the first
`error` rejects, later events are ignored (the promise is settled). -/
def execEvents : List PEvent → String → String → ExecOutcome
  | [], o, e => .pending o e
  | .out s :: rest, o, e => execEvents rest (o ++ s) e
  | .err s :: rest, o, e => execEvents rest o (e ++ s)
  | .close c :: _, o, e => .resolved ⟨o, e, c⟩
  | .error m :: _, o, e => .rejected ⟨"Failed to spawn command: " ++ m, o, e⟩

/-- `executeCommand`, as the function from the child process's event list
to the settled promise. -/
def executeCommand (events : List PEvent) : ExecOutcome :=
  execEvents events "" ""

/-- Whether an event is a data (stream) event. -/
def isDataEv : PEvent → Bool
  | .out _ => true
  | .err _ => true
  | _ => false

/-- Whether an event is the `error` event. -/
def isErrorEv : PEvent → Bool
  | .error _ => true
  | _ => false

/-- Accumulated stdout of a list of data events. -/
def outsOf : List PEvent → String
  | [] => ""
  | .out s :: rest => s ++ outsOf rest
  | _ :: rest => outsOf rest

/-- Accumulated stderr of a list of data events. -/
def errsOf : List PEvent → String
  | [] => ""
  | .err s :: rest => s ++ errsOf rest
  | _ :: rest => errsOf rest

/-! ## The formatter environment

Each formatter is modelled as a pure function of:
* `res : String → String` — JS `path.resolve` against the process cwd;
* `fs : String → Bool` — JS `existsSync`;
* `stub : Stub` — the Process Runner as the callers observe it: from the
  argument vector of a `warden` invocation to a settled result (every
  `executeCommand` call in the source passes `"warden"` as the command).

Formatters return their outcome together with the ordered list of
external-process invocations they performed. -/

/-- The `{stdout, stderr, code}` record seen by formatters (code
modelled as `Int`; Node's `null` exit code behaves like any non-zero
value in every caller). -/
structure CommandResult where
  stdout : String
  stderr : String
  code : Int
deriving DecidableEq, Repr

/-- Result of one awaited `executeCommand` call: resolution with
`{stdout, stderr, code}`, or rejection carrying the message and captured
partial output. -/
inductive SpawnOutcome
  | ok (r : CommandResult)
  | fail (msg stdout stderr : String)
deriving DecidableEq, Repr

/-- The Process-Runner stub: argument vector of the `warden` process to
settled outcome. -/
def Stub : Type := List String → SpawnOutcome

/-- One external-process invocation: a `spawn("warden", args)` through
`executeCommand` (arguments may be `undefined`, modelled `none`), or a
shell command through `execSync`. -/
inductive Invocation
  | runner (args : List (Option String))
  | shell (cmd : String)
deriving DecidableEq, Repr

/-- A tool response envelope: one text block plus the error flag. -/
structure Envelope where
  text : String
  isError : Bool
deriving DecidableEq, Repr

/-- Formatter outcome: a returned envelope, or an exception that escapes
the handler (propagating to the protocol layer). -/
inductive Outcome
  | envl (e : Envelope)
  | thrown (msg : String)
deriving DecidableEq, Repr

/-- Node's `spawn` validates the argument vector before creating any
process; an `undefined` entry raises `ERR_INVALID_ARG_TYPE`
synchronously inside the promise executor, which rejects the promise.
Message modelled after Node's. -/
def argTypeErrMsg : String :=
  "The \"args\" argument must be of type string. Received undefined"

/-- Sequence an argument vector: `some` of the strings when every entry
is defined, `none` as soon as one is `undefined`. -/
def seqArgs : List (Option String) → Option (List String)
  | [] => some []
  | none :: _ => none
  | some s :: rest => (seqArgs rest).map (s :: ·)

/-- `await this.executeCommand("warden", args, cwd)` as formatters see
it: argument validation first (no process is created on failure), then
the stubbed execution. -/
def runnerCall (stub : Stub) (args : List (Option String)) : SpawnOutcome :=
  match seqArgs args with
  | some strs => stub strs
  | none => .fail argTypeErrMsg "" ""

/-- Whether an invocation actually created an external process: a runner
call does iff its arguments validate and the spawn itself succeeded; the
`execSync` shell call always does. -/
def spawnsProcess (stub : Stub) : Invocation → Bool
  | .runner args =>
    match seqArgs args with
    | some strs =>
      match stub strs with
      | .ok _ => true
      | .fail _ _ _ => false
    | none => false
  | .shell _ => true

/-- Number of external processes actually spawned by an invocation list. -/
def spawnedCount (stub : Stub) (log : List Invocation) : Nat :=
  (log.filter (spawnsProcess stub)).length

/-! ## Small JS string helpers used by the formatters -/

/-- JS template-literal rendering of a possibly-undefined string. -/
def optStr : Option String → String
  | some s => s
  | none => "undefined"

/-- JS `Array.prototype.join(" ")`: `undefined` elements render empty. -/
def joinArgs (args : List (Option String)) : String :=
  String.intercalate " " (args.map fun a => (a.getD ""))

/-- JS `p.replace(/\/+$/, "")`: strip one trailing run of slashes. -/
def jsStripTrailingSlashes (s : String) : String :=
  String.mk (s.data.reverse.dropWhile (· = '/')).reverse

/-- JS `s.trim()` on `String`. -/
def jsTrimStr (s : String) : String :=
  String.mk (trimChars s.data)

/-- JS `s.toLowerCase()` (ASCII core). -/
def jsToLowerStr (s : String) : String :=
  String.mk (s.data.map Char.toLower)

/-- JS `hay.includes(needle)` on `String`. -/
def containsSubStr (needle hay : String) : Bool :=
  containsSub needle.data hay.data

/-- `path.join(dir, file)` for an already-normalized directory. -/
def pjoin (a b : String) : String :=
  a ++ "/" ++ b

mutual

/-- Worker for JS `split(/\s+/)`: accumulating the current piece
(reversed). -/
def jsSplitWsGo : List Char → List Char → List (List Char)
  | [], acc => [acc.reverse]
  | c :: rest, acc =>
    if isWsChar c then acc.reverse :: jsSplitWsSkip rest
    else jsSplitWsGo rest (c :: acc)

/-- Worker for JS `split(/\s+/)`: inside a whitespace run (one separator
regardless of length); a run at the end of input yields a trailing empty
piece. -/
def jsSplitWsSkip : List Char → List (List Char)
  | [] => [[]]
  | c :: rest =>
    if isWsChar c then jsSplitWsSkip rest
    else jsSplitWsGo rest [c]

end

/-- JS `s.split(/\s+/)`: split on maximal whitespace runs; a leading or
trailing run contributes an empty piece, and the empty string yields one
empty piece. -/
def jsSplitWs (l : List Char) : List (List Char) :=
  jsSplitWsGo l []

/-- JS `s.split(/\s+/)` on `String`. -/
def jsSplitWsStr (s : String) : List String :=
  (jsSplitWs s.data).map String.mk

/-- `x || "(no output)"`. -/
def orNoOutput (s : String) : String :=
  if s = "" then "(no output)" else s

/-- `x || "(no errors)"`. -/
def orNoErrors (s : String) : String :=
  if s = "" then "(no errors)" else s

/-! ## executeWardenCommand (`server.js` lines 831-876) and the tools
that route through it -/

/-- The rendered command string `warden ${wardenArgs.join(" ")}`. -/
def wardenCmdStr (args : List (Option String)) : String :=
  "warden " ++ joinArgs args

/-- Success-path envelope text of `executeWardenCommand`
(`server.js` line 859). -/
def ewcOkText (description : String) (args : List (Option String)) (cwd : String)
    (r : CommandResult) : String :=
  description ++ (if r.code = 0 then " completed successfully" else " failed") ++
    "!\n\nCommand: " ++ wardenCmdStr args ++ "\nWorking directory: " ++ cwd ++
    "\nExit Code: " ++ toString r.code ++ "\n\nOutput:\n" ++ orNoOutput r.stdout ++
    "\n\nErrors:\n" ++ orNoErrors r.stderr

/-- Catch-path envelope text of `executeWardenCommand`
(`server.js` line 870). -/
def ewcFailText (args : List (Option String)) (cwd m o e : String) : String :=
  "Failed to execute command:\n\nCommand: " ++ wardenCmdStr args ++
    "\nWorking directory: " ++ cwd ++ "\nError: " ++ m ++
    "\n\nOutput:\n" ++ orNoOutput o ++ "\n\nErrors:\n" ++ orNoErrors e

/-- `executeWardenCommand(project_path, wardenArgs, description)`: throw
when the path is falsy; normalize and resolve it; throw when the resolved
directory does not exist (both throws happen before the `try` block, so
they escape the handler); otherwise run the command and render the
envelope, with `isError` mirroring a non-zero exit code and rejections
caught into an error envelope. -/
def executeWardenCommand (res : String → String) (fs : String → Bool) (stub : Stub)
    (project_path : Option String) (wardenArgs : List (Option String))
    (description : String) : Outcome × List Invocation :=
  match project_path with
  | none => (.thrown "project_path is required", [])
  | some p =>
    if p = "" then (.thrown "project_path is required", [])
    else
      let abs := res (jsStripTrailingSlashes p)
      if !(fs abs) then (.thrown ("Project directory does not exist: " ++ abs), [])
      else
        match runnerCall stub wardenArgs with
        | .ok r =>
          (.envl ⟨ewcOkText description wardenArgs abs r, !(r.code = 0)⟩, [.runner wardenArgs])
        | .fail m o e =>
          (.envl ⟨ewcFailText wardenArgs abs m o e, true⟩, [.runner wardenArgs])

/-- `warden_start_project` (`server.js` lines 511-518). -/
def startProject (res : String → String) (fs : String → Bool) (stub : Stub)
    (project_path : Option String) : Outcome × List Invocation :=
  executeWardenCommand res fs stub project_path [some "env", some "up"]
    "Starting Warden project environment"

/-- `warden_stop_project` (`server.js` lines 520-527). -/
def stopProject (res : String → String) (fs : String → Bool) (stub : Stub)
    (project_path : Option String) : Outcome × List Invocation :=
  executeWardenCommand res fs stub project_path [some "env", some "down"]
    "Stopping Warden project environment"

/-- `warden_start_svc` (`server.js` lines 529-536). -/
def startSvc (res : String → String) (fs : String → Bool) (stub : Stub)
    (project_path : Option String) : Outcome × List Invocation :=
  executeWardenCommand res fs stub project_path [some "svc", some "up"]
    "Starting Warden system services"

/-- `warden_stop_svc` (`server.js` lines 538-545). -/
def stopSvc (res : String → String) (fs : String → Bool) (stub : Stub)
    (project_path : Option String) : Outcome × List Invocation :=
  executeWardenCommand res fs stub project_path [some "svc", some "down"]
    "Stopping Warden system services"

/-- The argument vector built by `runDbQuery` (`server.js` lines
550-562); the query is passed through unvalidated, so it may be
`undefined`. -/
def dbQueryArgs (database : String) (query : Option String) : List (Option String) :=
  [some "env", some "exec", some "-T", some "db", some "mysql", some "-u",
    some "root", some "-pmagento", some database, some "-e", query]

/-- `warden_db_query` (`server.js` lines 547-569): the database name
defaults to `"magento"` when omitted; no validation of `query`. -/
def runDbQuery (res : String → String) (fs : String → Bool) (stub : Stub)
    (project_path query database : Option String) : Outcome × List Invocation :=
  let db := database.getD "magento"
  executeWardenCommand res fs stub project_path (dbQueryArgs db query)
    ("Running database query in " ++ db)

/-- `warden_php_script` (`server.js` lines 571-589): `script_path` is
passed through unvalidated. -/
def runPhpScript (res : String → String) (fs : String → Bool) (stub : Stub)
    (project_path script_path : Option String) (args : List String) :
    Outcome × List Invocation :=
  executeWardenCommand res fs stub project_path
    ([some "env", some "exec", some "-T", some "php-fpm", some "php", script_path] ++
      args.map some)
    ("Running PHP script: " ++ optStr script_path)

/-- `warden_magento_cli` (`server.js` lines 591-610): `command` is passed
through unvalidated. -/
def runMagentoCli (res : String → String) (fs : String → Bool) (stub : Stub)
    (project_path command : Option String) (args : List String) :
    Outcome × List Invocation :=
  executeWardenCommand res fs stub project_path
    ([some "env", some "exec", some "-T", some "php-fpm", some "php",
      some "bin/magento", command] ++ args.map some)
    ("Running Magento CLI: bin/magento " ++ optStr command)

/-! ## runUnitTests (`server.js` lines 612-700) -/

/-- Node's TypeError when `.replace` is read off `undefined`
(`project_path.replace(/\/+$/, "")` with the parameter absent). -/
def undefReplaceMsg : String :=
  "Cannot read properties of undefined (reading 'replace')"

/-- The PHPUnit argument vector (`server.js` lines 641-656). -/
def unitTestArgs (cfg tp : String) (extra : List String) : List (Option String) :=
  [some "env", some "exec", some "-T", some "php-fpm", some "php",
    some "vendor/phpunit/phpunit/phpunit", some "-c", some cfg] ++
    (if tp ≠ "" && jsTrimStr tp ≠ "" then [some tp] else []) ++ extra.map some

/-- The debug block interpolated into both PHPUnit envelopes
(`server.js` lines 662-669). -/
def unitDebugInfo (abs cfg tp : String) (extra : List String)
    (commandStr : String) : String :=
  "\nDebug Information:\n- Project Path: " ++ abs ++
    "\n- Config File Used: " ++ cfg ++
    "\n- Test Path: " ++ (if tp = "" then "(all tests)" else tp) ++
    "\n- Extra Args: " ++ (if extra.isEmpty then "(none)" else String.intercalate " " extra) ++
    "\n- Full Command: " ++ commandStr ++ "\n"

/-- Success-path PHPUnit envelope text (`server.js` line 684). -/
def unitOkText (cfg dbg : String) (r : CommandResult) : String :=
  "Running PHPUnit tests with config: " ++ cfg ++ " " ++
    (if r.code = 0 then "completed successfully" else "failed") ++ "!\n" ++ dbg ++
    "\nExit Code: " ++ toString r.code ++ "\n\nOutput:\n" ++ orNoOutput r.stdout ++
    "\n\nErrors:\n" ++ orNoErrors r.stderr

/-- Catch-path PHPUnit envelope text (`server.js` line 694). -/
def unitFailText (dbg m o e : String) : String :=
  "Failed to execute PHPUnit tests:\n" ++ dbg ++ "\nError: " ++ m ++
    "\n\nOutput:\n" ++ orNoOutput o ++ "\n\nErrors:\n" ++ orNoErrors e

/-- `warden_run_unit_tests`: with no explicit config file, probe for
`phpunit.xml.dist` then `phpunit.xml` in the resolved project directory
and throw (escaping the handler) when neither exists; then run PHPUnit
and render the envelope.  A missing `project_path` raises a TypeError at
the first `.replace` call, before any process. -/
def runUnitTests (res : String → String) (fs : String → Bool) (stub : Stub)
    (project_path config_file test_path : Option String)
    (extra_args : List String) : Outcome × List Invocation :=
  let cf := config_file.getD ""
  let tp := test_path.getD ""
  match project_path with
  | none => (.thrown undefReplaceMsg, [])
  | some p =>
    let abs := res (jsStripTrailingSlashes p)
    let detected : Option String :=
      if cf = "" then
        if fs (pjoin abs "phpunit.xml.dist") then some "phpunit.xml.dist"
        else if fs (pjoin abs "phpunit.xml") then some "phpunit.xml"
        else none
      else some cf
    match detected with
    | none =>
      (.thrown "No PHPUnit configuration file found (phpunit.xml.dist or phpunit.xml)", [])
    | some cfg =>
      let args := unitTestArgs cfg tp extra_args
      let dbg := unitDebugInfo abs cfg tp extra_args (wardenCmdStr args)
      match runnerCall stub args with
      | .ok r => (.envl ⟨unitOkText cfg dbg r, !(r.code = 0)⟩, [.runner args])
      | .fail m o e => (.envl ⟨unitFailText dbg m o e, true⟩, [.runner args])

/-! ## runComposer (`server.js` lines 702-829) -/

/-- Probe 1: `warden env exec -T php-fpm which composer2`. -/
def composerProbe2Args : List (Option String) :=
  [some "env", some "exec", some "-T", some "php-fpm", some "which", some "composer2"]

/-- Probe 2: `warden env exec -T php-fpm which composer`. -/
def composerProbeArgs : List (Option String) :=
  [some "env", some "exec", some "-T", some "php-fpm", some "which", some "composer"]

/-- Probe 3: `warden env exec -T php-fpm composer --version`. -/
def composerVersionArgs : List (Option String) :=
  [some "env", some "exec", some "-T", some "php-fpm", some "composer", some "--version"]

/-- The final composer argument vector: the user command string is
trimmed, split on whitespace runs, and spliced token-by-token after the
chosen executable (`server.js` lines 788-797). -/
def composerRunArgs (composerCommand command : String) : List (Option String) :=
  [some "env", some "exec", some "-T", some "php-fpm", some composerCommand] ++
    (jsSplitWsStr (jsTrimStr command)).map some

/-- Envelope text when neither composer executable exists
(`server.js` line 745). -/
def composerNotFoundText : String :=
  "Composer not found!\n\nNeither 'composer2' nor 'composer' commands are available in the php-fpm container.\n\nPlease install Composer version 2 in your container."

/-- Envelope text when `composer --version` itself fails
(`server.js` line 764). -/
def composerVersionCheckFailText (stderr : String) : String :=
  "Failed to check Composer version!\n\nCommand: composer --version\nError: " ++ stderr

/-- Envelope text when the installed composer is not major version 2
(`server.js` line 778). -/
def composerVersion2RequiredText (stdout : String) : String :=
  "Composer version 2 is required!\n\nFound: " ++ jsTrimStr stdout ++
    "\n\nPlease install or upgrade to Composer version 2."

/-- Envelope text of an executed composer command (`server.js` line 812). -/
def composerOkText (composerCommand command abs : String) (r : CommandResult) : String :=
  "Composer command " ++ (if r.code = 0 then "completed successfully" else "failed") ++
    "!\n\nCommand: " ++ composerCommand ++ " " ++ command ++
    "\nWorking directory: " ++ abs ++ "\nExit Code: " ++ toString r.code ++
    "\n\nOutput:\n" ++ orNoOutput r.stdout ++ "\n\nErrors:\n" ++ orNoErrors r.stderr

/-- Catch-path composer envelope text (`server.js` line 823); note the
command string here always says `composer`, not the probed executable. -/
def composerCatchText (command abs m o e : String) : String :=
  "Failed to execute Composer command:\n\nCommand: composer " ++ command ++
    "\nWorking directory: " ++ abs ++ "\nError: " ++ m ++
    "\n\nOutput:\n" ++ orNoOutput o ++ "\n\nErrors:\n" ++ orNoErrors e

/-- Run the user's composer command after a successful capability probe
(`server.js` lines 788-816), appending to the probe invocation log. -/
def composerExec (stub : Stub) (abs cmd composerCommand : String)
    (log : List Invocation) : Outcome × List Invocation :=
  let args := composerRunArgs composerCommand cmd
  match runnerCall stub args with
  | .ok r =>
    (.envl ⟨composerOkText composerCommand cmd abs r, !(r.code = 0)⟩, log ++ [.runner args])
  | .fail m o e =>
    (.envl ⟨composerCatchText cmd abs m o e, true⟩, log ++ [.runner args])

/-- `warden_composer`: validate `project_path` and `command` (throws
escape the handler), check the directory exists (throw), then probe for
`composer2`; on failure probe `composer` and its version, requiring the
lowercased version output to contain `composer version 2`; only then run
the user's command.  Rejections inside the `try` are caught into an
error envelope. -/
def runComposer (res : String → String) (fs : String → Bool) (stub : Stub)
    (project_path command : Option String) : Outcome × List Invocation :=
  match project_path with
  | none => (.thrown "project_path is required", [])
  | some p =>
    if p = "" then (.thrown "project_path is required", [])
    else
      match command with
      | none => (.thrown "command is required", [])
      | some cmd =>
        if cmd = "" then (.thrown "command is required", [])
        else
          let abs := res (jsStripTrailingSlashes p)
          if !(fs abs) then (.thrown ("Project directory does not exist: " ++ abs), [])
          else
            match runnerCall stub composerProbe2Args with
            | .fail m o e =>
              (.envl ⟨composerCatchText cmd abs m o e, true⟩, [.runner composerProbe2Args])
            | .ok r1 =>
              if r1.code = 0 then
                composerExec stub abs cmd "composer2" [.runner composerProbe2Args]
              else
                match runnerCall stub composerProbeArgs with
                | .fail m o e =>
                  (.envl ⟨composerCatchText cmd abs m o e, true⟩,
                    [.runner composerProbe2Args, .runner composerProbeArgs])
                | .ok r2 =>
                  if !(r2.code = 0) then
                    (.envl ⟨composerNotFoundText, true⟩,
                      [.runner composerProbe2Args, .runner composerProbeArgs])
                  else
                    match runnerCall stub composerVersionArgs with
                    | .fail m o e =>
                      (.envl ⟨composerCatchText cmd abs m o e, true⟩,
                        [.runner composerProbe2Args, .runner composerProbeArgs,
                          .runner composerVersionArgs])
                    | .ok r3 =>
                      if !(r3.code = 0) then
                        (.envl ⟨composerVersionCheckFailText r3.stderr, true⟩,
                          [.runner composerProbe2Args, .runner composerProbeArgs,
                            .runner composerVersionArgs])
                      else if !(containsSubStr "composer version 2" (jsToLowerStr r3.stdout)) then
                        (.envl ⟨composerVersion2RequiredText r3.stdout, true⟩,
                          [.runner composerProbe2Args, .runner composerProbeArgs,
                            .runner composerVersionArgs])
                      else
                        composerExec stub abs cmd "composer"
                          [.runner composerProbe2Args, .runner composerProbeArgs,
                            .runner composerVersionArgs]

/-! ## initProject (`server.js` lines 878-969) and the `.env` update pass -/

/-- The parameters of `warden_init_project`; `none` models an absent
argument (JS destructuring defaults apply to `undefined`). -/
structure InitParams where
  project_path : Option String := none
  project_name : Option String := none
  environment_type : Option String := none
  php_version : Option String := none
  mysql_distribution : Option String := none
  mysql_version : Option String := none
  node_version : Option String := none
  composer_version : Option String := none
  opensearch_version : Option String := none
  redis_version : Option String := none
  enable_redis : Option Bool := none
  enable_opensearch : Option Bool := none
  enable_varnish : Option Bool := none
  enable_rabbitmq : Option Bool := none
  enable_xdebug : Option Bool := none
deriving DecidableEq, Repr

/-- The `updates` object of `initProject` (`server.js` lines 921-934),
in insertion order; booleans render as the literal strings `1`/`0`. -/
def updatesOf (p : InitParams) : List (List Char × List Char) :=
  [("PHP_VERSION".data, (p.php_version.getD "8.3").data),
   ("MYSQL_DISTRIBUTION".data, (p.mysql_distribution.getD "mariadb").data),
   ("MYSQL_DISTRIBUTION_VERSION".data, (p.mysql_version.getD "10.6").data),
   ("NODE_VERSION".data, (p.node_version.getD "20").data),
   ("COMPOSER_VERSION".data, (p.composer_version.getD "2").data),
   ("OPENSEARCH_VERSION".data, (p.opensearch_version.getD "2.12").data),
   ("REDIS_VERSION".data, (p.redis_version.getD "7.2").data),
   ("WARDEN_REDIS".data, (if p.enable_redis.getD true then "1" else "0").data),
   ("WARDEN_OPENSEARCH".data, (if p.enable_opensearch.getD true then "1" else "0").data),
   ("WARDEN_VARNISH".data, (if p.enable_varnish.getD true then "1" else "0").data),
   ("WARDEN_RABBITMQ".data, (if p.enable_rabbitmq.getD true then "1" else "0").data),
   ("PHP_XDEBUG_3".data, (if p.enable_xdebug.getD true then "1" else "0").data)]

/-- Whether a line matches the anchored whole-line JS regex
`^KEY=.*$` (multiline flag): the line starts with `KEY=` and, since `.`
matches neither `\r` nor `\n` and `$` only matches before `\n` or at the
end, contains no carriage return.  (Lines produced by newline splitting
never contain `\n`.) -/
def lineMatchKey (key line : List Char) : Bool :=
  (key ++ ['=']).isPrefixOf line && !(line.contains '\r')

/-- Replace the first line matching the key with the replacement
(JS non-global `String.replace`). -/
def replaceFirstLine (key repl : List Char) : List (List Char) → List (List Char)
  | [] => []
  | l :: ls => if lineMatchKey key l then repl :: ls else l :: replaceFirstLine key repl ls

/-- One iteration of the update loop (`server.js` lines 937-944) on the
line decomposition: replace the first matching line in place, or append
`\nKEY=value` (a new final line) when no line matches. -/
def linesUpdate (lines : List (List Char)) (kv : List Char × List Char) :
    List (List Char) :=
  if lines.any (lineMatchKey kv.1) then
    replaceFirstLine kv.1 (kv.1 ++ '=' :: kv.2) lines
  else lines ++ [kv.1 ++ '=' :: kv.2]

/-- One iteration of the update loop on the raw file content:
`envContent.match(regex) ? envContent.replace(regex, "KEY=value")
: envContent + "\nKEY=value"`. -/
def applyUpdate (content : List Char) (kv : List Char × List Char) : List Char :=
  let lines := splitNL content
  if lines.any (lineMatchKey kv.1) then
    joinNL (replaceFirstLine kv.1 (kv.1 ++ '=' :: kv.2) lines)
  else content ++ '\n' :: (kv.1 ++ '=' :: kv.2)

/-- The whole read-modify-write pass over the `.env` content. -/
def applyAllUpdates (content : List Char) (ups : List (List Char × List Char)) :
    List Char :=
  ups.foldl applyUpdate content

/-- Two update keys are disjoint when neither anchored pattern `KEY=` is
a prefix of the other, so no single line can match both. -/
def keysDisjoint (a b : List Char) : Bool :=
  !((a ++ ['=']).isPrefixOf (b ++ ['='])) && !((b ++ ['=']).isPrefixOf (a ++ ['=']))

/-- Node's TypeError from `path.resolve(undefined)`. -/
def resolveTypeErrMsg : String :=
  "The \"paths[0]\" argument must be of type string. Received undefined"

/-- `enabled`/`disabled` rendering of the feature toggles. -/
def enabledStr (b : Bool) : String :=
  if b then "enabled" else "disabled"

/-- Catch-path text of `initProject` (`server.js` line 963); absent
arguments render as `undefined` in the template literal. -/
def initCatchText (pp pn : Option String) (m o e : String) : String :=
  "Failed to initialize Warden project:\n\nProject Path: " ++ optStr pp ++
    "\nProject Name: " ++ optStr pn ++ "\nError: " ++ m ++
    "\n\nOutput:\n" ++ orNoOutput o ++ "\n\nErrors:\n" ++ orNoErrors e

/-- Success-path text of `initProject` (`server.js` line 953). -/
def initOkText (abs : String) (p : InitParams) (r : CommandResult) : String :=
  "Warden project initialized successfully!\n\nProject Path: " ++ abs ++
    "\nProject Name: " ++ optStr p.project_name ++
    "\nEnvironment Type: " ++ (p.environment_type.getD "magento2") ++
    "\n\nConfiguration:\n- PHP Version: " ++ (p.php_version.getD "8.3") ++
    "\n- MySQL: " ++ (p.mysql_distribution.getD "mariadb") ++ " " ++ (p.mysql_version.getD "10.6") ++
    "\n- Node.js: " ++ (p.node_version.getD "20") ++
    "\n- Composer: " ++ (p.composer_version.getD "2") ++
    "\n- OpenSearch: " ++ (p.opensearch_version.getD "2.12") ++
    " (" ++ enabledStr (p.enable_opensearch.getD true) ++ ")" ++
    "\n- Redis: " ++ (p.redis_version.getD "7.2") ++
    " (" ++ enabledStr (p.enable_redis.getD true) ++ ")" ++
    "\n- Varnish: " ++ enabledStr (p.enable_varnish.getD true) ++
    "\n- RabbitMQ: " ++ enabledStr (p.enable_rabbitmq.getD true) ++
    "\n- Xdebug: " ++ enabledStr (p.enable_xdebug.getD true) ++
    "\n\nNext steps:\n1. Navigate to: " ++ abs ++
    "\n2. Run: warden env up" ++
    "\n3. Your environment will be available at: https://" ++ optStr p.project_name ++ ".test" ++
    "\n\nOutput:\n" ++ r.stdout

/-- The full result of `initProject`: the outcome, the invocation log,
and the content written back to the `.env` file when one was written. -/
structure InitResult where
  outcome : Outcome
  invocations : List Invocation
  written : Option (List Char)
deriving DecidableEq, Repr

/-- `warden_init_project`: the entire body sits in a `try`, so every
failure is caught into an error envelope.  It performs no existence
check on the project path: it resolves it (without stripping trailing
slashes), shells out `mkdir -p`, runs `warden env init <name> <type>`,
treats a non-zero exit as a thrown failure, and on success rewrites the
generated `.env` (when it exists) through the fixed update list.
`readEnv` supplies the content `readFileSync` returns for a path. -/
def initProject (res : String → String) (fs : String → Bool) (stub : Stub)
    (readEnv : String → List Char) (p : InitParams) : InitResult :=
  match p.project_path with
  | none => ⟨.envl ⟨initCatchText none p.project_name resolveTypeErrMsg "" "", true⟩, [], none⟩
  | some pp =>
    let abs := res pp
    let mk := Invocation.shell ("mkdir -p \"" ++ abs ++ "\"")
    let initArgs : List (Option String) :=
      [some "env", some "init", p.project_name, some (p.environment_type.getD "magento2")]
    match runnerCall stub initArgs with
    | .fail m o e =>
      ⟨.envl ⟨initCatchText (some pp) p.project_name m o e, true⟩,
        [mk, .runner initArgs], none⟩
    | .ok r =>
      if !(r.code = 0) then
        ⟨.envl ⟨initCatchText (some pp) p.project_name ("Warden init failed: " ++ r.stderr) "" "", true⟩,
          [mk, .runner initArgs], none⟩
      else
        let envPath := pjoin abs ".env"
        ⟨.envl ⟨initOkText abs p r, false⟩, [mk, .runner initArgs],
          if fs envPath then some (applyAllUpdates (readEnv envPath) (updatesOf p)) else none⟩

/-! ## listEnvironments (`server.js` lines 349-427) -/

/-- JSON string escaping for the characters occurring in practice
(quote, backslash, and ASCII control whitespace); other characters pass
through unchanged (models `JSON.stringify` on such strings). -/
def jsonEscapeChar (c : Char) : List Char :=
  if c = '"' then ['\\', '"']
  else if c = '\\' then ['\\', '\\']
  else if c = '\n' then ['\\', 'n']
  else if c = '\r' then ['\\', 'r']
  else if c = '\t' then ['\\', 't']
  else if c = '\x08' then ['\\', 'b']
  else if c = '\x0c' then ['\\', 'f']
  else [c]

/-- A JSON string literal. -/
def jsonStr (s : String) : String :=
  "\"" ++ String.mk (s.data.foldr (fun c acc => jsonEscapeChar c ++ acc) []) ++ "\""

/-- The `environments` array as `JSON.stringify(…, null, 2)` renders it
at depth one. -/
def envsJson (envs : List EnvRecord) : String :=
  if envs.isEmpty then "[]"
  else
    "[\n" ++
      String.intercalate ",\n" (envs.map fun e =>
        "    \x7b\n      \"name\": " ++ jsonStr (String.mk e.name) ++
          ",\n      \"path\": " ++ jsonStr (String.mk e.path) ++ "\n    \x7d") ++
      "\n  ]"

/-- The success JSON of `warden_list_environments` (`server.js` line 364). -/
def listOkJson (r : CommandResult) (envs : List EnvRecord) : String :=
  "\x7b\n  \"success\": true,\n  \"command\": \"warden status\",\n  \"exit_code\": " ++
    toString r.code ++ ",\n  \"environments\": " ++ envsJson envs ++
    ",\n  \"raw_output\": " ++ jsonStr r.stdout ++ "\n\x7d"

/-- The non-zero-exit JSON of `warden_list_environments`
(`server.js` line 387). -/
def listErrJson (r : CommandResult) : String :=
  "\x7b\n  \"success\": false,\n  \"command\": \"warden status\",\n  \"exit_code\": " ++
    toString r.code ++ ",\n  \"environments\": [],\n  \"error\": " ++
    jsonStr (if r.stderr = "" then "Unknown error" else r.stderr) ++
    ",\n  \"raw_output\": " ++ jsonStr r.stdout ++ "\n\x7d"

/-- The catch-path JSON of `warden_list_environments`
(`server.js` line 409). -/
def listCatchJson (m o e : String) : String :=
  "\x7b\n  \"success\": false,\n  \"command\": \"warden status\",\n  \"exit_code\": -1,\n  \"environments\": [],\n  \"error\": " ++
    jsonStr m ++ ",\n  \"raw_output\": " ++ jsonStr o ++
    ",\n  \"raw_errors\": " ++ jsonStr e ++ "\n\x7d"

/-- `warden_list_environments`: run `warden status`, parse its stdout on
success, and render a structured JSON envelope; exactly one runner
invocation in every branch. -/
def listEnvironments (stub : Stub) : Outcome × List Invocation :=
  match runnerCall stub [some "status"] with
  | .ok r =>
    if r.code = 0 then
      (.envl ⟨listOkJson r (parseEnvironmentList r.stdout.data), false⟩,
        [.runner [some "status"]])
    else (.envl ⟨listErrJson r, true⟩, [.runner [some "status"]])
  | .fail m o e => (.envl ⟨listCatchJson m o e, true⟩, [.runner [some "status"]])

/-! ## Definitions used by the theorem statements -/

/-- A `{name-line, directory-line}` block of the environment-status text,
together with the name token and the directory remainder the two lines
carry. -/
structure Block where
  nameLine : List Char
  dirLine : List Char
  name : List Char
  path : List Char
deriving DecidableEq, Repr

/-- Well-formedness of a block, per the documented format (§4.2 of the
spec): neither line spans a newline; neither trimmed line is blank or
contains a banner fragment; after trimming and ANSI stripping, the first
line matches the name pattern with token `name` and not the directory
pattern order (checked: the directory line does not match the name
pattern, which the parser tries first); the second line matches the
directory pattern with remainder `path`; and the remainder carries no
surrounding whitespace (so it equals its trimmed form). -/
def wfBlock (b : Block) : Prop :=
  '\n' ∉ b.nameLine ∧ '\n' ∉ b.dirLine ∧
  (trimChars b.nameLine).isEmpty = false ∧
  (trimChars b.dirLine).isEmpty = false ∧
  containsSub banner1 (trimChars b.nameLine) = false ∧
  containsSub banner2 (trimChars b.nameLine) = false ∧
  containsSub banner1 (trimChars b.dirLine) = false ∧
  containsSub banner2 (trimChars b.dirLine) = false ∧
  nameLineMatch (ansiStrip (trimChars b.nameLine)) = some b.name ∧
  nameLineMatch (ansiStrip (trimChars b.dirLine)) = none ∧
  dirLineMatch (ansiStrip (trimChars b.dirLine)) = some b.path ∧
  trimChars b.path = b.path

instance wfBlock_decidable : DecidablePred wfBlock := fun b => by
  unfold wfBlock
  infer_instance

/-- The lines of a block sequence, in source order. -/
def blockLines : List Block → List (List Char)
  | [] => []
  | b :: bs => b.nameLine :: b.dirLine :: blockLines bs

/-- The record a well-formed block should produce. -/
def blockRecord (b : Block) : EnvRecord :=
  ⟨b.name, b.path, b.dirLine⟩

/-- The semantic projection of a parsed record: name and path, without
the raw source line. -/
def recNP (r : EnvRecord) : List Char × List Char :=
  (r.name, r.path)

/-- The initializer parameters of the round-trip scenario: an explicit
`php_version` of `8.3` and `redis_version` of `7.2`, everything else
defaulted. -/
def envUpdateParams : InitParams :=
  { php_version := some "8.3", redis_version := some "7.2" }

/-- Whether an outcome is a returned envelope (as opposed to an
exception escaping the handler). -/
def isEnvl : Outcome → Bool
  | .envl _ => true
  | .thrown _ => false

/-- The error status of an outcome: the envelope's flag, or `true` for
an escaped exception. -/
def outcomeIsError : Outcome → Bool
  | .envl e => e.isError
  | .thrown _ => true

/-- ANSI-insensitivity relation between an ANSI-coded line and a
counterpart: the parser treats two lines identically (up to the raw line
stored in emitted records) when they agree on trimmed blankness, on
banner containment of the trimmed line (checked by the source before
ANSI stripping), and on the trimmed, ANSI-stripped content the two
regexes see. -/
def lineRelated (c f : List Char) : Bool :=
  ((trimChars c).isEmpty == (trimChars f).isEmpty) &&
  (containsSub banner1 (trimChars c) == containsSub banner1 (trimChars f)) &&
  (containsSub banner2 (trimChars c) == containsSub banner2 (trimChars f)) &&
  (ansiStrip (trimChars c) == ansiStrip (trimChars f))

/-! # Theorems -/

/-! ## Generic helper lemmas -/

theorem str_append_assoc (a b c : String) : a ++ b ++ c = a ++ (b ++ c) := by
  cases a with
  | mk la =>
    cases b with
    | mk lb =>
      cases c with
      | mk lc =>
        show String.mk (la ++ lb ++ lc) = String.mk (la ++ (lb ++ lc))
        rw [List.append_assoc]

theorem str_empty_append (s : String) : "" ++ s = s := by
  cases s with
  | mk l => rfl

/-! ## Claim C2: the Process Runner's resolution and rejection contract -/

theorem execEvents_append_data (pre tail : List PEvent) (o e : String)
    (h : ∀ ev ∈ pre, isDataEv ev = true) :
    execEvents (pre ++ tail) o e = execEvents tail (o ++ outsOf pre) (e ++ errsOf pre) := by
  induction pre generalizing o e with
  | nil => simp [outsOf, errsOf]
  | cons ev rest ih =>
    cases ev with
    | out s =>
      have h' := ih (o ++ s) e (fun x hx => h x (List.mem_cons_of_mem _ hx))
      simp only [List.cons_append, execEvents, outsOf, errsOf]
      rw [← str_append_assoc]
      exact h'
    | err s =>
      have h' := ih o (e ++ s) (fun x hx => h x (List.mem_cons_of_mem _ hx))
      simp only [List.cons_append, execEvents, outsOf, errsOf]
      rw [← str_append_assoc]
      exact h'
    | close c => exact absurd (h _ (List.mem_cons_self _ _)) (by simp [isDataEv])
    | error m => exact absurd (h _ (List.mem_cons_self _ _)) (by simp [isDataEv])

theorem execEvents_no_error (evts : List PEvent) (o e : String)
    (h : ∀ ev ∈ evts, isErrorEv ev = false) :
    ∀ r, execEvents evts o e ≠ ExecOutcome.rejected r := by
  induction evts generalizing o e with
  | nil => intro r; simp [execEvents]
  | cons ev rest ih =>
    cases ev with
    | out s => exact fun r => ih _ _ (fun x hx => h x (List.mem_cons_of_mem _ hx)) r
    | err s => exact fun r => ih _ _ (fun x hx => h x (List.mem_cons_of_mem _ hx)) r
    | close c => intro r; simp [execEvents]
    | error m => exact absurd (h _ (List.mem_cons_self _ _)) (by simp [isErrorEv])

/-- C2: for every run of the Process Runner, (i) if the child terminates
normally (a `close` event carrying an integer exit code) after any
sequence of stream-data events, the promise resolves with
`{stdout, stderr, code}` where `stdout`/`stderr` are the fully
accumulated stream contents and `code` is that integer, regardless of
its value; (ii) if the process could not be spawned (an `error` event),
the promise rejects, and the rejection carries the partial stdout and
stderr captured before the failure; (iii) the promise never rejects
unless an `error` event occurred. -/
theorem claim2_executeCommand
    (pre rest pre' rest' evts : List PEvent) (c : Int) (m : String)
    (hpre : ∀ ev ∈ pre, isDataEv ev = true)
    (hpre' : ∀ ev ∈ pre', isDataEv ev = true)
    (hsafe : ∀ ev ∈ evts, isErrorEv ev = false) :
    executeCommand (pre ++ PEvent.close (some c) :: rest) =
      ExecOutcome.resolved ⟨outsOf pre, errsOf pre, some c⟩
    ∧ executeCommand (pre' ++ PEvent.error m :: rest') =
        ExecOutcome.rejected ⟨"Failed to spawn command: " ++ m, outsOf pre', errsOf pre'⟩
    ∧ ∀ r, executeCommand evts ≠ ExecOutcome.rejected r := by
  refine ⟨?_, ?_, ?_⟩
  · rw [executeCommand, execEvents_append_data _ _ _ _ hpre,
      str_empty_append, str_empty_append]
    rfl
  · rw [executeCommand, execEvents_append_data _ _ _ _ hpre',
      str_empty_append, str_empty_append]
    rfl
  · exact execEvents_no_error evts "" "" hsafe

/-- Witness for C2 at a concrete event trace: two data chunks on each
stream, then a normal close with exit code 2; a spawn failure after one
stdout chunk; and a rejection-free trace. -/
theorem claim2_witness :
    executeCommand [PEvent.out "a", PEvent.err "b", PEvent.out "c",
        PEvent.close (some 2)] =
      ExecOutcome.resolved ⟨"ac", "b", some 2⟩
    ∧ executeCommand [PEvent.out "partial", PEvent.error "spawn warden ENOENT"] =
        ExecOutcome.rejected ⟨"Failed to spawn command: spawn warden ENOENT", "partial", ""⟩
    ∧ executeCommand [PEvent.out "a", PEvent.close (some 1)] ≠
        ExecOutcome.rejected ⟨"x", "", ""⟩ := by
  have h := claim2_executeCommand
    [PEvent.out "a", PEvent.err "b", PEvent.out "c"] []
    [PEvent.out "partial"] []
    [PEvent.out "a", PEvent.close (some 1)] 2 "spawn warden ENOENT"
    (by decide) (by decide) (by decide)
  refine ⟨?_, ?_, h.2.2 _⟩
  · have := h.1
    simpa [outsOf, errsOf] using this
  · have := h.2.1
    simpa [outsOf, errsOf] using this

/-! ## Helper lemmas about the runner-call layer -/

theorem seqArgs_map_some (l : List String) : seqArgs (l.map some) = some l := by
  induction l with
  | nil => rfl
  | cons s rest ih => simp [seqArgs, ih]

theorem runnerCall_map_some (stub : Stub) (l : List String) :
    runnerCall stub (l.map some) = stub l := by
  simp [runnerCall, seqArgs_map_some]

/-! ## Claim C9: the database-query argument vector -/

/-- C9: with an existing project path, query `q` and database
`"magento"`, the database-query tool invokes the runner with exactly the
argument vector `env exec -T db mysql -u root -pmagento magento -e q`;
the same vector is built when the database parameter is omitted (it
defaults to the literal `"magento"`); and when the runner resolves with
exit code 0 the returned envelope has `isError = false`. -/
theorem claim9_runDbQuery (res : String → String) (fs : String → Bool)
    (stub : Stub) (p q : String) (r : CommandResult)
    (hp : p ≠ "")
    (hfs : fs (res (jsStripTrailingSlashes p)) = true)
    (hstub : stub ["env", "exec", "-T", "db", "mysql", "-u", "root", "-pmagento",
      "magento", "-e", q] = SpawnOutcome.ok r)
    (hr : r.code = 0) :
    dbQueryArgs "magento" (some q) =
      (["env", "exec", "-T", "db", "mysql", "-u", "root", "-pmagento",
        "magento", "-e", q]).map some
    ∧ runDbQuery res fs stub (some p) (some q) (some "magento") =
        (Outcome.envl ⟨ewcOkText "Running database query in magento"
            (dbQueryArgs "magento" (some q)) (res (jsStripTrailingSlashes p)) r, false⟩,
          [Invocation.runner (dbQueryArgs "magento" (some q))])
    ∧ runDbQuery res fs stub (some p) (some q) none =
        (Outcome.envl ⟨ewcOkText "Running database query in magento"
            (dbQueryArgs "magento" (some q)) (res (jsStripTrailingSlashes p)) r, false⟩,
          [Invocation.runner (dbQueryArgs "magento" (some q))]) := by
  have hargs : dbQueryArgs "magento" (some q) =
      (["env", "exec", "-T", "db", "mysql", "-u", "root", "-pmagento",
        "magento", "-e", q]).map some := rfl
  have hrun : runnerCall stub (dbQueryArgs "magento" (some q)) = SpawnOutcome.ok r := by
    rw [hargs, runnerCall_map_some]
    exact hstub
  have hmain : executeWardenCommand res fs stub (some p)
      (dbQueryArgs "magento" (some q)) "Running database query in magento" =
      (Outcome.envl ⟨ewcOkText "Running database query in magento"
          (dbQueryArgs "magento" (some q)) (res (jsStripTrailingSlashes p)) r, false⟩,
        [Invocation.runner (dbQueryArgs "magento" (some q))]) := by
    simp only [executeWardenCommand, if_neg hp, hfs, Bool.not_true, Bool.false_eq_true,
      if_false, hrun, hr]
    simp [hr]
  exact ⟨hargs, hmain, hmain⟩

/-- Witness for C9 at concrete inputs: project `/p`, query `SELECT 1`,
database `magento`, a stub resolving with exit code 0. -/
theorem claim9_witness :
    runDbQuery id (fun _ => true)
      (fun _ => SpawnOutcome.ok ⟨"1\n1\n", "", 0⟩)
      (some "/p") (some "SELECT 1") (some "magento") =
      (Outcome.envl ⟨ewcOkText "Running database query in magento"
          (dbQueryArgs "magento" (some "SELECT 1")) "/p" ⟨"1\n1\n", "", 0⟩, false⟩,
        [Invocation.runner (dbQueryArgs "magento" (some "SELECT 1"))]) := by
  have h := claim9_runDbQuery id (fun _ => true)
    (fun _ => SpawnOutcome.ok ⟨"1\n1\n", "", 0⟩) "/p" "SELECT 1" ⟨"1\n1\n", "", 0⟩
    (by decide) rfl rfl rfl
  exact h.2.1

/-! ## Claim C5: the composer capability probe -/

/-- C5: when `composer2` is absent (probe exits non-zero), the generic
`composer` exists (probe exits zero), and `composer --version` succeeds
but its lowercased output lacks the `composer version 2` marker, the
composer tool returns an error envelope reporting that version 2 is
required, and the invocation log consists of exactly the three probe
commands — the user's requested subcommand is never executed. -/
theorem claim5_runComposer (res : String → String) (fs : String → Bool)
    (stub : Stub) (p cmd : String) (r1 r2 r3 : CommandResult)
    (hp : p ≠ "") (hcmd : cmd ≠ "")
    (hfs : fs (res (jsStripTrailingSlashes p)) = true)
    (h1 : stub ["env", "exec", "-T", "php-fpm", "which", "composer2"] = SpawnOutcome.ok r1)
    (h1c : r1.code ≠ 0)
    (h2 : stub ["env", "exec", "-T", "php-fpm", "which", "composer"] = SpawnOutcome.ok r2)
    (h2c : r2.code = 0)
    (h3 : stub ["env", "exec", "-T", "php-fpm", "composer", "--version"] = SpawnOutcome.ok r3)
    (h3c : r3.code = 0)
    (h3v : containsSubStr "composer version 2" (jsToLowerStr r3.stdout) = false) :
    runComposer res fs stub (some p) (some cmd) =
      (Outcome.envl ⟨composerVersion2RequiredText r3.stdout, true⟩,
        [Invocation.runner composerProbe2Args, Invocation.runner composerProbeArgs,
          Invocation.runner composerVersionArgs]) := by
  have hr1 : runnerCall stub composerProbe2Args = SpawnOutcome.ok r1 := by
    show runnerCall stub ((["env", "exec", "-T", "php-fpm", "which", "composer2"]).map some) = _
    rw [runnerCall_map_some]; exact h1
  have hr2 : runnerCall stub composerProbeArgs = SpawnOutcome.ok r2 := by
    show runnerCall stub ((["env", "exec", "-T", "php-fpm", "which", "composer"]).map some) = _
    rw [runnerCall_map_some]; exact h2
  have hr3 : runnerCall stub composerVersionArgs = SpawnOutcome.ok r3 := by
    show runnerCall stub ((["env", "exec", "-T", "php-fpm", "composer", "--version"]).map some) = _
    rw [runnerCall_map_some]; exact h3
  simp only [runComposer, if_neg hp, if_neg hcmd, hfs, Bool.not_true, Bool.false_eq_true,
    if_false, hr1, hr2, hr3]
  simp [h1c, h2c, h3c, h3v]

/-- Witness for C5 at concrete inputs: composer2 missing, composer
present but reporting version 1. -/
theorem claim5_witness :
    runComposer id (fun _ => true)
      (fun args =>
        if args = ["env", "exec", "-T", "php-fpm", "which", "composer2"] then
          SpawnOutcome.ok ⟨"", "composer2 not found", 1⟩
        else if args = ["env", "exec", "-T", "php-fpm", "which", "composer"] then
          SpawnOutcome.ok ⟨"/usr/bin/composer\n", "", 0⟩
        else SpawnOutcome.ok ⟨"Composer version 1.10.26 2022-04-13 16:39:56\n", "", 0⟩)
      (some "/p") (some "install") =
      (Outcome.envl ⟨composerVersion2RequiredText
          "Composer version 1.10.26 2022-04-13 16:39:56\n", true⟩,
        [Invocation.runner composerProbe2Args, Invocation.runner composerProbeArgs,
          Invocation.runner composerVersionArgs]) := by
  exact claim5_runComposer id (fun _ => true) _ "/p" "install"
    ⟨"", "composer2 not found", 1⟩ ⟨"/usr/bin/composer\n", "", 0⟩
    ⟨"Composer version 1.10.26 2022-04-13 16:39:56\n", "", 0⟩
    (by decide) (by decide) rfl (by decide) (by decide) (by decide) rfl (by decide) rfl
    (by decide)

/-! ## Claim C10: composer command tokenization -/

theorem jsSplitWs_aux_no_ws (l : List Char) :
    (∀ acc, (∀ c ∈ acc, isWsChar c = false) →
      ∀ t ∈ jsSplitWsGo l acc, ∀ c ∈ t, isWsChar c = false)
    ∧ (∀ t ∈ jsSplitWsSkip l, ∀ c ∈ t, isWsChar c = false) := by
  induction l with
  | nil =>
    refine ⟨?_, ?_⟩
    · intro acc hacc t ht c hc
      simp only [jsSplitWsGo, List.mem_singleton] at ht
      subst ht
      exact hacc c (List.mem_reverse.mp hc)
    · intro t ht c hc
      simp only [jsSplitWsSkip, List.mem_singleton] at ht
      subst ht
      simp at hc
  | cons x rest ih =>
    refine ⟨?_, ?_⟩
    · intro acc hacc t ht c hc
      by_cases hx : isWsChar x
      · simp only [jsSplitWsGo, hx, if_true, List.mem_cons] at ht
        rcases ht with ht | ht
        · subst ht; exact hacc c (List.mem_reverse.mp hc)
        · exact ih.2 t ht c hc
      · simp only [jsSplitWsGo, hx, if_false] at ht
        refine ih.1 (x :: acc) ?_ t ht c hc
        intro d hd
        rcases List.mem_cons.mp hd with hd | hd
        · subst hd; exact Bool.not_eq_true _ ▸ (by simpa using hx)
        · exact hacc d hd
    · intro t ht c hc
      by_cases hx : isWsChar x
      · simp only [jsSplitWsSkip, hx, if_true] at ht
        exact ih.2 t ht c hc
      · simp only [jsSplitWsSkip, hx, if_false] at ht
        refine ih.1 [x] ?_ t ht c hc
        intro d hd
        simp only [List.mem_singleton] at hd
        subst hd
        simpa using hx

/-- Tokens produced by JS `split(/\s+/)` never contain whitespace. -/
theorem jsSplitWs_no_ws (l : List Char) :
    ∀ t ∈ jsSplitWs l, ∀ c ∈ t, isWsChar c = false := by
  exact (jsSplitWs_aux_no_ws l).1 [] (by intro c hc; simp at hc)

/-- C10: after the capability probe passes (here: `composer2` present),
the user's composer command string is trimmed and split on runs of
whitespace, and the resulting tokens are spliced one-per-element after
the composer executable into the final argument vector; no token
contains whitespace, so an argument containing whitespace can never be
passed intact and quoting has no grouping effect. -/
theorem claim10_runComposer (res : String → String) (fs : String → Bool)
    (stub : Stub) (p cmd : String) (r1 : CommandResult)
    (hp : p ≠ "") (hcmd : cmd ≠ "")
    (hfs : fs (res (jsStripTrailingSlashes p)) = true)
    (h1 : stub ["env", "exec", "-T", "php-fpm", "which", "composer2"] = SpawnOutcome.ok r1)
    (h1c : r1.code = 0) :
    (runComposer res fs stub (some p) (some cmd)).2 =
      [Invocation.runner composerProbe2Args,
        Invocation.runner (composerRunArgs "composer2" cmd)]
    ∧ composerRunArgs "composer2" cmd =
        [some "env", some "exec", some "-T", some "php-fpm", some "composer2"] ++
          (jsSplitWsStr (jsTrimStr cmd)).map some
    ∧ ∀ t ∈ jsSplitWsStr (jsTrimStr cmd), ∀ c ∈ t.data, isWsChar c = false := by
  have hr1 : runnerCall stub composerProbe2Args = SpawnOutcome.ok r1 := by
    show runnerCall stub ((["env", "exec", "-T", "php-fpm", "which", "composer2"]).map some) = _
    rw [runnerCall_map_some]; exact h1
  refine ⟨?_, rfl, ?_⟩
  · simp only [runComposer, if_neg hp, if_neg hcmd, hfs, Bool.not_true, Bool.false_eq_true,
      if_false, hr1, h1c, if_pos rfl, composerExec]
    cases hrc : runnerCall stub (composerRunArgs "composer2" cmd) <;> simp [hrc]
  · intro t ht c hc
    simp only [jsSplitWsStr, List.mem_map] at ht
    obtain ⟨t', ht', rfl⟩ := ht
    exact jsSplitWs_no_ws _ t' ht' c hc

/-- Witness for C10 at a concrete command string containing quoting and
multiple spaces: `require  "symfony/console:^6.0"`. -/
theorem claim10_witness :
    (runComposer id (fun _ => true) (fun _ => SpawnOutcome.ok ⟨"", "", 0⟩)
        (some "/p") (some "require  \"symfony/console:^6.0\"")).2 =
      [Invocation.runner composerProbe2Args,
        Invocation.runner (composerRunArgs "composer2" "require  \"symfony/console:^6.0\"")]
    ∧ composerRunArgs "composer2" "require  \"symfony/console:^6.0\"" =
        [some "env", some "exec", some "-T", some "php-fpm", some "composer2"] ++
          ((jsSplitWsStr (jsTrimStr "require  \"symfony/console:^6.0\"")).map some)
    ∧ ∀ t ∈ jsSplitWsStr (jsTrimStr "require  \"symfony/console:^6.0\""),
        ∀ c ∈ t.data, isWsChar c = false := by
  exact claim10_runComposer id (fun _ => true) (fun _ => SpawnOutcome.ok ⟨"", "", 0⟩)
    "/p" "require  \"symfony/console:^6.0\"" ⟨"", "", 0⟩
    (by decide) (by decide) rfl rfl rfl

/-! ## Claim C1 (corrected): missing required parameters -/

/-- Counterexample to C1 as stated.  (i) `warden_start_project` without
`project_path` does not return an envelope with `isError = true`: the
handler throws `project_path is required` before its `try` block, so the
exception escapes to the protocol layer and no result envelope is
produced by this code.  (ii) `warden_init_project` with `project_path`
but without the required `project_name` does not keep the external
process count at zero: the `mkdir -p` shell command has already been
spawned (one external process) before the `env init` spawn is rejected
on its `undefined` argument. -/
theorem claim1_counterexample :
    startProject id (fun _ => true) (fun _ => SpawnOutcome.ok ⟨"", "", 0⟩) none =
      (Outcome.thrown "project_path is required", [])
    ∧ (initProject id (fun _ => true) (fun _ => SpawnOutcome.ok ⟨"", "", 0⟩)
        (fun _ => []) { project_path := some "/new" }).invocations =
        [Invocation.shell "mkdir -p \"/new\"",
          Invocation.runner [some "env", some "init", none, some "magento2"]]
    ∧ spawnedCount (fun _ => SpawnOutcome.ok ⟨"", "", 0⟩)
        (initProject id (fun _ => true) (fun _ => SpawnOutcome.ok ⟨"", "", 0⟩)
          (fun _ => []) { project_path := some "/new" }).invocations = 1 := by
  refine ⟨rfl, rfl, rfl⟩

/-- C1 (amended): a tool call missing a required parameter never spawns
a `warden` process, but the failure it surfaces varies by tool rather
than always being an `isError = true` envelope: (i) the tools routed
through `executeWardenCommand`, and `runComposer`, throw an
`… is required` error with an empty invocation log, the exception
escaping the handler; (ii) `runUnitTests` without a project path throws
a TypeError; (iii) `runDbQuery` with a project path but no query does
invoke the runner once — the spawn is then rejected on the `undefined`
argument before any process is created, and an `isError = true` envelope
results; (iv) `initProject` without a project path catches its own
TypeError into an `isError = true` envelope with no invocation at all,
while with only `project_name` missing its `mkdir` shell command still
runs (one spawned process) before the rejected `env init` spawn is
caught into an `isError = true` envelope. -/
theorem claim1_amended (res : String → String) (fs : String → Bool) (stub : Stub)
    (readEnv : String → List Char) (wargs : List (Option String)) (desc p : String)
    (q db cf tp et pn : Option String) (extra : List String)
    (hp : p ≠ "") (hfs : fs (res (jsStripTrailingSlashes p)) = true) :
    executeWardenCommand res fs stub none wargs desc =
      (Outcome.thrown "project_path is required", [])
    ∧ startProject res fs stub none = (Outcome.thrown "project_path is required", [])
    ∧ stopProject res fs stub none = (Outcome.thrown "project_path is required", [])
    ∧ startSvc res fs stub none = (Outcome.thrown "project_path is required", [])
    ∧ stopSvc res fs stub none = (Outcome.thrown "project_path is required", [])
    ∧ runComposer res fs stub none q = (Outcome.thrown "project_path is required", [])
    ∧ runComposer res fs stub (some p) none = (Outcome.thrown "command is required", [])
    ∧ runUnitTests res fs stub none cf tp extra = (Outcome.thrown undefReplaceMsg, [])
    ∧ runDbQuery res fs stub (some p) none db =
        (Outcome.envl ⟨ewcFailText (dbQueryArgs (db.getD "magento") none)
            (res (jsStripTrailingSlashes p)) argTypeErrMsg "" "", true⟩,
          [Invocation.runner (dbQueryArgs (db.getD "magento") none)])
    ∧ spawnedCount stub [Invocation.runner (dbQueryArgs (db.getD "magento") none)] = 0
    ∧ initProject res fs stub readEnv { project_name := pn } =
        ⟨Outcome.envl ⟨initCatchText none pn resolveTypeErrMsg "" "", true⟩, [], none⟩
    ∧ (initProject res fs stub readEnv
        { project_path := some p, environment_type := et }).outcome =
        Outcome.envl ⟨initCatchText (some p) none argTypeErrMsg "" "", true⟩
    ∧ spawnedCount stub (initProject res fs stub readEnv
        { project_path := some p, environment_type := et }).invocations = 1 := by
  have hdb : runnerCall stub (dbQueryArgs (db.getD "magento") none) =
      SpawnOutcome.fail argTypeErrMsg "" "" := by
    simp [runnerCall, dbQueryArgs, seqArgs]
  have hinit : runnerCall stub [some "env", some "init", none, some (et.getD "magento2")] =
      SpawnOutcome.fail argTypeErrMsg "" "" := by
    simp [runnerCall, seqArgs]
  refine ⟨rfl, rfl, rfl, rfl, rfl, rfl, ?_, rfl, ?_, ?_, rfl, ?_, ?_⟩
  · simp [runComposer, hp]
  · simp only [runDbQuery, executeWardenCommand, if_neg hp, hfs, Bool.not_true,
      Bool.false_eq_true, if_false, hdb]
  · simp [spawnedCount, spawnsProcess, dbQueryArgs, seqArgs]
  · simp only [initProject, hinit]
  · simp only [initProject, hinit]
    simp [spawnedCount, spawnsProcess, seqArgs]

/-- Witness for C1 (amended) at concrete inputs. -/
theorem claim1_witness :
    runComposer id (fun _ => true) (fun _ => SpawnOutcome.ok ⟨"", "", 0⟩)
      (some "/p") none = (Outcome.thrown "command is required", [])
    ∧ runDbQuery id (fun _ => true) (fun _ => SpawnOutcome.ok ⟨"", "", 0⟩)
        (some "/p") none none =
        (Outcome.envl ⟨ewcFailText (dbQueryArgs "magento" none) "/p" argTypeErrMsg "" "",
          true⟩, [Invocation.runner (dbQueryArgs "magento" none)]) := by
  have h := claim1_amended id (fun _ => true) (fun _ => SpawnOutcome.ok ⟨"", "", 0⟩)
    (fun _ => []) [some "env", some "up"] "d" "/p" none none none none none none []
    (by decide) rfl
  exact ⟨h.2.2.2.2.2.2.1, h.2.2.2.2.2.2.2.2.1⟩

/-! ## Claim C4 (corrected): nonexistent project paths -/

/-- Counterexample to C4 as stated.  (i) The project initializer, listed
among the project-path-requiring tools, performs no existence check at
all on a nonexistent path: it spawns its `mkdir -p` shell command and
the `env init` runner invocation and returns a success envelope
(`isError = false`).  (ii) The test runner with an explicit config file
also invokes the runner on a nonexistent path rather than failing first. -/
theorem claim4_counterexample :
    (initProject id (fun _ => false) (fun _ => SpawnOutcome.ok ⟨"done", "", 0⟩)
        (fun _ => []) { project_path := some "/nonexistent", project_name := some "demo" }).invocations =
      [Invocation.shell "mkdir -p \"/nonexistent\"",
        Invocation.runner [some "env", some "init", some "demo", some "magento2"]]
    ∧ (initProject id (fun _ => false) (fun _ => SpawnOutcome.ok ⟨"done", "", 0⟩)
        (fun _ => []) { project_path := some "/nonexistent", project_name := some "demo" }).outcome =
        Outcome.envl ⟨initOkText "/nonexistent"
          { project_path := some "/nonexistent", project_name := some "demo" }
          ⟨"done", "", 0⟩, false⟩
    ∧ (runUnitTests id (fun _ => false) (fun _ => SpawnOutcome.ok ⟨"", "", 1⟩)
        (some "/nonexistent") (some "phpunit.xml") none []).2 =
        [Invocation.runner (unitTestArgs "phpunit.xml" "" [])] := by
  refine ⟨rfl, rfl, rfl⟩

/-- C4 (amended): when the supplied project path, after stripping
trailing separators and resolving, does not exist on disk, the six tools
routed through `executeWardenCommand` (start/stop project, start/stop
services, database query, PHP script, Magento CLI) and `runComposer`
fail before the Process Runner is invoked — but by a thrown
`Project directory does not exist` error escaping the handler, not by an
`isError = true` envelope; the test runner fails the same way (with a
`No PHPUnit configuration file found` error) only when no explicit
config file is supplied.  The test runner with an explicit config file
and the project initializer are exceptions that do invoke the runner
(counterexample). -/
theorem claim4_amended (res : String → String) (fs : String → Bool) (stub : Stub)
    (wargs : List (Option String)) (desc p cmd : String)
    (q db sp cm tp : Option String) (extra : List String)
    (hp : p ≠ "") (hcmd : cmd ≠ "")
    (hfs : fs (res (jsStripTrailingSlashes p)) = false)
    (hfs1 : fs (pjoin (res (jsStripTrailingSlashes p)) "phpunit.xml.dist") = false)
    (hfs2 : fs (pjoin (res (jsStripTrailingSlashes p)) "phpunit.xml") = false) :
    executeWardenCommand res fs stub (some p) wargs desc =
      (Outcome.thrown ("Project directory does not exist: " ++
        res (jsStripTrailingSlashes p)), [])
    ∧ startProject res fs stub (some p) =
        (Outcome.thrown ("Project directory does not exist: " ++
          res (jsStripTrailingSlashes p)), [])
    ∧ stopProject res fs stub (some p) =
        (Outcome.thrown ("Project directory does not exist: " ++
          res (jsStripTrailingSlashes p)), [])
    ∧ startSvc res fs stub (some p) =
        (Outcome.thrown ("Project directory does not exist: " ++
          res (jsStripTrailingSlashes p)), [])
    ∧ stopSvc res fs stub (some p) =
        (Outcome.thrown ("Project directory does not exist: " ++
          res (jsStripTrailingSlashes p)), [])
    ∧ runDbQuery res fs stub (some p) q db =
        (Outcome.thrown ("Project directory does not exist: " ++
          res (jsStripTrailingSlashes p)), [])
    ∧ runPhpScript res fs stub (some p) sp extra =
        (Outcome.thrown ("Project directory does not exist: " ++
          res (jsStripTrailingSlashes p)), [])
    ∧ runMagentoCli res fs stub (some p) cm extra =
        (Outcome.thrown ("Project directory does not exist: " ++
          res (jsStripTrailingSlashes p)), [])
    ∧ runComposer res fs stub (some p) (some cmd) =
        (Outcome.thrown ("Project directory does not exist: " ++
          res (jsStripTrailingSlashes p)), [])
    ∧ runUnitTests res fs stub (some p) none tp extra =
        (Outcome.thrown "No PHPUnit configuration file found (phpunit.xml.dist or phpunit.xml)",
          []) := by
  have hewc : ∀ (wa : List (Option String)) (d : String),
      executeWardenCommand res fs stub (some p) wa d =
        (Outcome.thrown ("Project directory does not exist: " ++
          res (jsStripTrailingSlashes p)), []) := by
    intro wa d
    simp [executeWardenCommand, hp, hfs]
  refine ⟨hewc _ _, hewc _ _, hewc _ _, hewc _ _, hewc _ _, hewc _ _, hewc _ _, hewc _ _,
    ?_, ?_⟩
  · simp [runComposer, hp, hcmd, hfs]
  · simp [runUnitTests, hfs1, hfs2]

/-- Witness for C4 (amended) at concrete inputs: path `/missing` on an
empty filesystem. -/
theorem claim4_witness :
    startProject id (fun _ => false) (fun _ => SpawnOutcome.ok ⟨"", "", 0⟩)
      (some "/missing") =
      (Outcome.thrown "Project directory does not exist: /missing", [])
    ∧ runUnitTests id (fun _ => false) (fun _ => SpawnOutcome.ok ⟨"", "", 0⟩)
        (some "/missing") none none [] =
        (Outcome.thrown "No PHPUnit configuration file found (phpunit.xml.dist or phpunit.xml)",
          []) := by
  have h := claim4_amended id (fun _ => false) (fun _ => SpawnOutcome.ok ⟨"", "", 0⟩)
    [some "env", some "up"] "d" "/missing" "install" none none none none none []
    (by decide) (by decide) rfl rfl rfl
  exact ⟨h.2.1, h.2.2.2.2.2.2.2.2.2⟩

/-! ## Claim C6 (corrected): external-process invocations per tool call -/

theorem composerExec_shape (stub : Stub) (abs cmd cc : String) (log : List Invocation) :
    ∃ e, composerExec stub abs cmd cc log =
      (Outcome.envl e, log ++ [Invocation.runner (composerRunArgs cc cmd)]) := by
  unfold composerExec
  dsimp only
  split <;> exact ⟨_, rfl⟩

theorem ewc_shape (res : String → String) (fs : String → Bool) (stub : Stub)
    (pp : Option String) (wargs : List (Option String)) (desc : String) :
    (∃ m, executeWardenCommand res fs stub pp wargs desc = (Outcome.thrown m, []))
    ∨ (∃ e, executeWardenCommand res fs stub pp wargs desc =
        (Outcome.envl e, [Invocation.runner wargs])) := by
  unfold executeWardenCommand
  dsimp only
  repeat' split
  all_goals first
    | exact Or.inl ⟨_, rfl⟩
    | exact Or.inr ⟨_, rfl⟩

theorem runUnitTests_shape (res : String → String) (fs : String → Bool) (stub : Stub)
    (pp cf tp : Option String) (extra : List String) :
    (∃ m, runUnitTests res fs stub pp cf tp extra = (Outcome.thrown m, []))
    ∨ (∃ e inv, runUnitTests res fs stub pp cf tp extra = (Outcome.envl e, [inv])) := by
  unfold runUnitTests
  dsimp only
  repeat' split
  all_goals first
    | exact Or.inl ⟨_, rfl⟩
    | exact Or.inr ⟨_, _, rfl⟩

theorem runComposer_shape (res : String → String) (fs : String → Bool) (stub : Stub)
    (pp cm : Option String) :
    (∃ m, runComposer res fs stub pp cm = (Outcome.thrown m, []))
    ∨ (∃ e inv, runComposer res fs stub pp cm = (Outcome.envl e, inv)
        ∧ 1 ≤ inv.length ∧ inv.length ≤ 4) := by
  unfold runComposer
  dsimp only
  repeat' split
  all_goals first
    | exact Or.inl ⟨_, rfl⟩
    | exact Or.inr ⟨_, _, rfl, by simp, by simp⟩
    | (obtain ⟨e, he⟩ := composerExec_shape stub _ _ _ _
       exact Or.inr ⟨e, _, he, by simp, by simp⟩)

theorem initProject_shape (res : String → String) (fs : String → Bool) (stub : Stub)
    (readEnv : String → List Char) (prm : InitParams) :
    (∃ e, (initProject res fs stub readEnv prm).outcome = Outcome.envl ⟨e, true⟩
      ∧ (initProject res fs stub readEnv prm).invocations.length ≤ 2)
    ∨ (∃ e, (initProject res fs stub readEnv prm).outcome = Outcome.envl ⟨e, false⟩
        ∧ (initProject res fs stub readEnv prm).invocations.length = 2) := by
  unfold initProject
  dsimp only
  repeat' split
  all_goals first
    | exact Or.inl ⟨_, rfl, by simp⟩
    | exact Or.inr ⟨_, rfl, by simp⟩

theorem listEnvironments_shape (stub : Stub) :
    (listEnvironments stub).2 = [Invocation.runner [some "status"]] := by
  unfold listEnvironments
  repeat' split
  all_goals rfl

/-- C6 (amended): every tool call performs at most one external-process
invocation — exactly one whenever a result envelope is returned (error
or not), and always exactly one for the environment listing — except
`warden_composer`, which performs between one and four sequential
invocations per call (up to three capability probes plus the user\x27s
command; the spec\x27s bound of three is one short, see the
counterexample), and `warden_init_project`, which performs two (its
`mkdir -p` shell command plus the `env init` runner call; both whenever
its envelope reports success). -/
theorem claim6_amended (res : String → String) (fs : String → Bool) (stub : Stub)
    (readEnv : String → List Char) (pp q db sp cm cf tp : Option String)
    (extra : List String) (prm : InitParams) (wargs : List (Option String))
    (desc : String) :
    (listEnvironments stub).2 = [Invocation.runner [some "status"]]
    ∧ (executeWardenCommand res fs stub pp wargs desc).2.length ≤ 1
    ∧ (startProject res fs stub pp).2.length ≤ 1
    ∧ (stopProject res fs stub pp).2.length ≤ 1
    ∧ (startSvc res fs stub pp).2.length ≤ 1
    ∧ (stopSvc res fs stub pp).2.length ≤ 1
    ∧ (runDbQuery res fs stub pp q db).2.length ≤ 1
    ∧ (runPhpScript res fs stub pp sp extra).2.length ≤ 1
    ∧ (runMagentoCli res fs stub pp cm extra).2.length ≤ 1
    ∧ (runUnitTests res fs stub pp cf tp extra).2.length ≤ 1
    ∧ (runComposer res fs stub pp cm).2.length ≤ 4
    ∧ (initProject res fs stub readEnv prm).invocations.length ≤ 2
    ∧ (isEnvl (executeWardenCommand res fs stub pp wargs desc).1 = true →
        (executeWardenCommand res fs stub pp wargs desc).2.length = 1)
    ∧ (isEnvl (runUnitTests res fs stub pp cf tp extra).1 = true →
        (runUnitTests res fs stub pp cf tp extra).2.length = 1)
    ∧ (isEnvl (runComposer res fs stub pp cm).1 = true →
        1 ≤ (runComposer res fs stub pp cm).2.length)
    ∧ (outcomeIsError (initProject res fs stub readEnv prm).outcome = false →
        (initProject res fs stub readEnv prm).invocations.length = 2) := by
  have hewc : ∀ (wa : List (Option String)) (d : String),
      (executeWardenCommand res fs stub pp wa d).2.length ≤ 1 := by
    intro wa d
    rcases ewc_shape res fs stub pp wa d with ⟨m, hm⟩ | ⟨e, he⟩
    · rw [hm]
      simp
    · rw [he]
      simp
  have hunit : (runUnitTests res fs stub pp cf tp extra).2.length ≤ 1 := by
    rcases runUnitTests_shape res fs stub pp cf tp extra with ⟨m, hm⟩ | ⟨e, inv, he⟩
    · rw [hm]
      simp
    · rw [he]
      simp
  have hcomp : (runComposer res fs stub pp cm).2.length ≤ 4 := by
    rcases runComposer_shape res fs stub pp cm with ⟨m, hm⟩ | ⟨e, inv, he, _, h4⟩
    · rw [hm]
      simp
    · rw [he]
      exact h4
  have hinit : (initProject res fs stub readEnv prm).invocations.length ≤ 2 := by
    rcases initProject_shape res fs stub readEnv prm with ⟨e, _, h2⟩ | ⟨e, _, h2⟩
    · exact h2
    · exact h2.le
  refine ⟨listEnvironments_shape stub, hewc _ _, hewc _ _, hewc _ _, hewc _ _, hewc _ _,
    hewc _ _, hewc _ _, hewc _ _, hunit, hcomp, hinit, ?_, ?_, ?_, ?_⟩
  · intro h
    rcases ewc_shape res fs stub pp wargs desc with ⟨m, hm⟩ | ⟨e, he⟩
    · rw [hm] at h
      simp [isEnvl] at h
    · rw [he]
      simp
  · intro h
    rcases runUnitTests_shape res fs stub pp cf tp extra with ⟨m, hm⟩ | ⟨e, inv, he⟩
    · rw [hm] at h
      simp [isEnvl] at h
    · rw [he]
      simp
  · intro h
    rcases runComposer_shape res fs stub pp cm with ⟨m, hm⟩ | ⟨e, inv, he, h1, _⟩
    · rw [hm] at h
      simp [isEnvl] at h
    · rw [he]
      exact h1
  · intro h
    rcases initProject_shape res fs stub readEnv prm with ⟨e, he, _⟩ | ⟨e, he, h2⟩
    · rw [he] at h
      simp [outcomeIsError] at h
    · exact h2

/-- Counterexample to C6 as stated: a composer call whose capability
probe falls back to the generic executable performs four external
runner invocations (three probes plus the user\x27s command), exceeding
the claimed bound of three; and an initializer call performs two
external-process invocations (the `mkdir -p` shell command plus
`env init`), not one. -/
theorem claim6_counterexample :
    (runComposer id (fun _ => true)
        (fun args =>
          if args = ["env", "exec", "-T", "php-fpm", "which", "composer2"] then
            SpawnOutcome.ok ⟨"", "", 1⟩
          else if args = ["env", "exec", "-T", "php-fpm", "which", "composer"] then
            SpawnOutcome.ok ⟨"/usr/bin/composer\n", "", 0⟩
          else if args = ["env", "exec", "-T", "php-fpm", "composer", "--version"] then
            SpawnOutcome.ok ⟨"Composer version 2.7.1 2024-02-09 15:11:46\n", "", 0⟩
          else SpawnOutcome.ok ⟨"ok", "", 0⟩)
        (some "/p") (some "install")).2.length = 4
    ∧ (initProject id (fun _ => true) (fun _ => SpawnOutcome.ok ⟨"", "", 0⟩)
        (fun _ => []) { project_path := some "/p", project_name := some "demo" }).invocations.length = 2 := by
  refine ⟨?_, rfl⟩
  decide

/-- Witness for C6 (amended) at concrete inputs. -/
theorem claim6_witness :
    (listEnvironments (fun _ => SpawnOutcome.ok ⟨"", "", 0⟩)).2 =
      [Invocation.runner [some "status"]]
    ∧ (startProject id (fun _ => true) (fun _ => SpawnOutcome.ok ⟨"", "", 0⟩)
        (some "/p")).2.length ≤ 1
    ∧ (runComposer id (fun _ => true) (fun _ => SpawnOutcome.ok ⟨"", "", 0⟩)
        (some "/p") (some "install")).2.length ≤ 4
    ∧ (outcomeIsError (initProject id (fun _ => true)
          (fun _ => SpawnOutcome.ok ⟨"", "", 0⟩) (fun _ => [])
          { project_path := some "/p", project_name := some "demo" }).outcome = false →
        (initProject id (fun _ => true) (fun _ => SpawnOutcome.ok ⟨"", "", 0⟩)
          (fun _ => [])
          { project_path := some "/p", project_name := some "demo" }).invocations.length = 2) := by
  have h := claim6_amended id (fun _ => true) (fun _ => SpawnOutcome.ok ⟨"", "", 0⟩)
    (fun _ => []) (some "/p") none none none (some "install") none none []
    { project_path := some "/p", project_name := some "demo" }
    [some "env", some "up"] "d"
  exact ⟨h.1, h.2.2.1, h.2.2.2.2.2.2.2.2.2.2.1, h.2.2.2.2.2.2.2.2.2.2.2.2.2.2.2⟩

/-! ## Claim C3: well-formed block parsing -/

theorem splitNL_append_cons (l r : List Char) (h : '\n' ∉ l) :
    splitNL (l ++ '\n' :: r) = l :: splitNL r := by
  induction l with
  | nil => simp [splitNL]
  | cons c cs ih =>
    have hc : ¬c = '\n' := fun e => h (by simp [e])
    have hcs : '\n' ∉ cs := fun hx => h (List.mem_cons_of_mem _ hx)
    simp only [List.cons_append, splitNL, if_neg hc, List.append_eq]
    rw [ih hcs]

theorem splitNL_no_nl (l : List Char) (h : '\n' ∉ l) : splitNL l = [l] := by
  induction l with
  | nil => rfl
  | cons c cs ih =>
    have hc : ¬c = '\n' := fun e => h (by simp [e])
    have hcs : '\n' ∉ cs := fun hx => h (List.mem_cons_of_mem _ hx)
    simp only [splitNL, if_neg hc, ih hcs]

theorem splitNL_joinNL (ls : List (List Char)) (hne : ls ≠ [])
    (h : ∀ l ∈ ls, '\n' ∉ l) : splitNL (joinNL ls) = ls := by
  induction ls with
  | nil => exact absurd rfl hne
  | cons l rest ih =>
    cases rest with
    | nil => simp [joinNL, splitNL_no_nl l (h l (by simp))]
    | cons l2 rest2 =>
      have h1 : joinNL (l :: l2 :: rest2) = l ++ '\n' :: joinNL (l2 :: rest2) := rfl
      rw [h1, splitNL_append_cons _ _ (h l (by simp)),
        ih (by simp) (fun x hx => h x (List.mem_cons_of_mem _ hx))]

theorem mem_blockLines (l : List Char) (blocks : List Block)
    (hl : l ∈ blockLines blocks) : ∃ b ∈ blocks, l = b.nameLine ∨ l = b.dirLine := by
  induction blocks with
  | nil => simp [blockLines] at hl
  | cons b bs ih =>
    simp only [blockLines, List.mem_cons] at hl
    rcases hl with rfl | rfl | hl
    · exact ⟨b, by simp, Or.inl rfl⟩
    · exact ⟨b, by simp, Or.inr rfl⟩
    · obtain ⟨b', hb', hor⟩ := ih hl
      exact ⟨b', List.mem_cons_of_mem _ hb', hor⟩

theorem parseLines_block (b : Block) (rest : List (List Char))
    (st : Option (List Char)) (h : wfBlock b) :
    parseLines (b.nameLine :: b.dirLine :: rest) st =
      blockRecord b :: parseLines rest none := by
  obtain ⟨-, -, he1, he2, hb1n, hb2n, hb1d, hb2d, hnm, hnd, hdd, -⟩ := h
  simp [parseLines, he1, he2, hb1n, hb2n, hb1d, hb2d, hnm, hnd, hdd, blockRecord]

theorem parseLines_blocks (blocks : List Block) (h : ∀ b ∈ blocks, wfBlock b)
    (st : Option (List Char)) :
    parseLines (blockLines blocks) st = blocks.map blockRecord := by
  induction blocks generalizing st with
  | nil => rfl
  | cons b bs ih =>
    rw [blockLines, parseLines_block b _ st (h b (by simp)),
      ih (fun x hx => h x (List.mem_cons_of_mem _ hx)) none]
    rfl

/-- C3: for an input text consisting of `n` well-formed
`{name-line, directory-line}` blocks in the documented order, the parser
returns exactly `n` records, in source order, the `i`-th record carrying
the `i`-th block's name token, its directory remainder (which, by
well-formedness, equals its trimmed form — the `\s*` in the regex has
already consumed the leading whitespace), and the raw directory line. -/
theorem claim3_parseEnvironmentList (blocks : List Block)
    (h : ∀ b ∈ blocks, wfBlock b) :
    parseEnvironmentList (joinNL (blockLines blocks)) = blocks.map blockRecord
    ∧ (parseEnvironmentList (joinNL (blockLines blocks))).length = blocks.length := by
  have hmain : parseEnvironmentList (joinNL (blockLines blocks)) =
      blocks.map blockRecord := by
    cases blocks with
    | nil => rfl
    | cons b bs =>
      unfold parseEnvironmentList
      rw [splitNL_joinNL _ (by simp [blockLines]) ?_, parseLines_blocks _ h none]
      intro l hl
      obtain ⟨b', hb', hor⟩ := mem_blockLines l _ hl
      obtain ⟨hn1, hn2, -⟩ := h b' hb'
      rcases hor with rfl | rfl
      · exact hn1
      · exact hn2
  exact ⟨hmain, by rw [hmain, List.length_map]⟩

/-- Witness for C3 on two concrete blocks, the first ANSI-colored. -/
theorem claim3_witness :
    parseEnvironmentList (joinNL (blockLines
      [⟨"  \x1b[32mdemo\x1b[0m a magento2 project".data,
        "    Project Directory: /home/user/demo".data,
        "demo".data, "/home/user/demo".data⟩,
       ⟨"other a laravel project".data,
        "  Project Directory: /srv/other".data,
        "other".data, "/srv/other".data⟩])) =
      [⟨"demo".data, "/home/user/demo".data,
        "    Project Directory: /home/user/demo".data⟩,
       ⟨"other".data, "/srv/other".data,
        "  Project Directory: /srv/other".data⟩] := by
  have h := claim3_parseEnvironmentList
    [⟨"  \x1b[32mdemo\x1b[0m a magento2 project".data,
      "    Project Directory: /home/user/demo".data,
      "demo".data, "/home/user/demo".data⟩,
     ⟨"other a laravel project".data,
      "  Project Directory: /srv/other".data,
      "other".data, "/srv/other".data⟩]
    (by decide)
  exact h.1

/-! ## Claim C8 (corrected): ANSI insensitivity -/

theorem parseLines_related (ls₁ ls₂ : List (List Char))
    (h : List.Forall₂ (fun c f => lineRelated c f = true) ls₁ ls₂) :
    ∀ st, (parseLines ls₁ st).map recNP = (parseLines ls₂ st).map recNP := by
  induction h with
  | nil => intro st; rfl
  | @cons a b l₁ l₂ h₁ h₂ ih =>
    intro st
    simp only [lineRelated, Bool.and_eq_true, beq_iff_eq] at h₁
    obtain ⟨⟨⟨hemp, hb1⟩, hb2⟩, hclean⟩ := h₁
    have hca : ((trimChars a).isEmpty || containsSub banner1 (trimChars a) ||
        containsSub banner2 (trimChars a)) =
        ((trimChars b).isEmpty || containsSub banner1 (trimChars b) ||
          containsSub banner2 (trimChars b)) := by
      rw [hemp, hb1, hb2]
    simp only [parseLines, hca, hclean]
    by_cases hsk : ((trimChars b).isEmpty || containsSub banner1 (trimChars b) ||
        containsSub banner2 (trimChars b)) = true
    · simp only [hsk, if_true]
      exact ih st
    · simp only [if_neg hsk]
      cases hm : nameLineMatch (ansiStrip (trimChars b)) with
      | some nm => exact ih (some nm)
      | none =>
        cases hd : dirLineMatch (ansiStrip (trimChars b)) with
        | some cap =>
          cases st with
          | some nm => simp only [List.map_cons, recNP, ih none]
          | none => exact ih none
        | none => exact ih st

/-- C8 (amended): the parses of two input texts agree up to the raw
source line stored in each record — i.e. their `(name, path)` sequences
are identical — whenever the two texts' lines are pairwise related in
the way the parser actually observes them: same trimmed-blankness, same
banner containment of the trimmed line (the skip check runs on the
trimmed line before ANSI stripping), and the same trimmed-then-stripped
content fed to the two regexes.  An ANSI-free text and an ANSI-coded
text whose escapes sit strictly inside the trimmed region and do not
interrupt a banner phrase satisfy this relation; escapes at the trimmed
edges or inside a banner phrase do not, and can change the output (see
the counterexample), as does the `rawLine` field, which keeps the
original coded line. -/
theorem claim8_amended (t₁ t₂ : List Char)
    (h : List.Forall₂ (fun c f => lineRelated c f = true) (splitNL t₁) (splitNL t₂)) :
    (parseEnvironmentList t₁).map recNP = (parseEnvironmentList t₂).map recNP :=
  parseLines_related _ _ h none

/-- Counterexample to C8 as stated: an ANSI-coded text and an ANSI-free
text that are byte-identical after removing ANSI escape sequences
(both whole-text and line-by-line), yet parse to different record
sequences — even after projecting away the raw lines.  The escape
sequence sits after the trailing space of the name line, so trimming
(which runs before ANSI stripping) leaves a trailing space in the coded
line's cleaned form and the anchored name regex rejects it. -/
theorem claim8_counterexample :
    ansiStrip "demo a magento2 project \x1b[0m\nProject Directory: /x".data =
      "demo a magento2 project \nProject Directory: /x".data
    ∧ (splitNL "demo a magento2 project \x1b[0m\nProject Directory: /x".data).map ansiStrip =
        (splitNL "demo a magento2 project \nProject Directory: /x".data).map ansiStrip
    ∧ parseEnvironmentList "demo a magento2 project \x1b[0m\nProject Directory: /x".data = []
    ∧ (parseEnvironmentList "demo a magento2 project \nProject Directory: /x".data).map recNP =
        [("demo".data, "/x".data)] := by
  decide

/-- Witness for C8 (amended): an ANSI-colored status text and its plain
counterpart, with the escapes inside the trimmed region, parse to the
same `(name, path)` sequence. -/
theorem claim8_witness :
    (parseEnvironmentList
        "  \x1b[33mdemo\x1b[0m a magento2 project\n   Project Directory: /home/d".data).map
        recNP =
      (parseEnvironmentList
        "  demo a magento2 project\n   Project Directory: /home/d".data).map recNP := by
  exact claim8_amended
    "  \x1b[33mdemo\x1b[0m a magento2 project\n   Project Directory: /home/d".data
    "  demo a magento2 project\n   Project Directory: /home/d".data
    (by decide)

/-! ## Claim C7: the `.env` update pass -/

theorem joinNL_append_singleton (ls : List (List Char)) (e : List Char) (h : ls ≠ []) :
    joinNL (ls ++ [e]) = joinNL ls ++ '\n' :: e := by
  induction ls with
  | nil => exact absurd rfl h
  | cons l rest ih =>
    cases rest with
    | nil => rfl
    | cons l2 rest2 =>
      have h1 : joinNL ((l :: l2 :: rest2) ++ [e]) =
          l ++ '\n' :: joinNL ((l2 :: rest2) ++ [e]) := rfl
      have h2 : joinNL (l :: l2 :: rest2) = l ++ '\n' :: joinNL (l2 :: rest2) := rfl
      rw [h1, ih (by simp), h2]
      simp [List.append_assoc]

theorem lineMatchKey_unique (a b line : List Char) (hd : keysDisjoint a b = true)
    (ha : lineMatchKey a line = true) : lineMatchKey b line = false := by
  simp only [keysDisjoint, Bool.and_eq_true, Bool.not_eq_true'] at hd
  obtain ⟨h1, h2⟩ := hd
  simp only [lineMatchKey, Bool.and_eq_true] at ha
  obtain ⟨hpa, hra⟩ := ha
  cases hpb : (b ++ ['=']).isPrefixOf line
  · simp [lineMatchKey, hpb]
  · exfalso
    have pa : (a ++ ['=']) <+: line := List.isPrefixOf_iff_prefix.mp hpa
    have pb : (b ++ ['=']) <+: line := List.isPrefixOf_iff_prefix.mp hpb
    rcases List.prefix_or_prefix_of_prefix pa pb with hh | hh
    · exact absurd (List.isPrefixOf_iff_prefix.mpr hh) (by simp [h1])
    · exact absurd (List.isPrefixOf_iff_prefix.mpr hh) (by simp [h2])

theorem length_replaceFirstLine (k r : List Char) (ls : List (List Char)) :
    (replaceFirstLine k r ls).length = ls.length := by
  induction ls with
  | nil => rfl
  | cons a tail ih =>
    by_cases h : lineMatchKey k a = true
    · simp [replaceFirstLine, h]
    · simp [replaceFirstLine, h, ih]

theorem cnt_replaceFirstLine_self (k r : List Char) (ls : List (List Char))
    (hr : lineMatchKey k r = true) :
    (replaceFirstLine k r ls).countP (lineMatchKey k) = ls.countP (lineMatchKey k) := by
  induction ls with
  | nil => rfl
  | cons a tail ih =>
    by_cases h : lineMatchKey k a = true
    · simp [replaceFirstLine, h, List.countP_cons, hr]
    · simp [replaceFirstLine, h, List.countP_cons, ih]

theorem cnt_replaceFirstLine_other (k k' r : List Char) (ls : List (List Char))
    (hd : keysDisjoint k k' = true) (hr : lineMatchKey k' r = false) :
    (replaceFirstLine k r ls).countP (lineMatchKey k') = ls.countP (lineMatchKey k') := by
  induction ls with
  | nil => rfl
  | cons a tail ih =>
    by_cases h : lineMatchKey k a = true
    · have ha' : lineMatchKey k' a = false := lineMatchKey_unique k k' a hd h
      simp [replaceFirstLine, h, List.countP_cons, hr, ha']
    · simp [replaceFirstLine, h, List.countP_cons, ih]

theorem getElem?_replaceFirstLine_of_not (k r x : List Char) (ls : List (List Char))
    (i : Nat) (hx : ls[i]? = some x) (h : lineMatchKey k x = false) :
    (replaceFirstLine k r ls)[i]? = some x := by
  induction ls generalizing i with
  | nil => simp at hx
  | cons a tail ih =>
    by_cases hm : lineMatchKey k a = true
    · have e1 : replaceFirstLine k r (a :: tail) = r :: tail := by
        simp [replaceFirstLine, hm]
      rw [e1]
      cases i with
      | zero =>
        simp only [List.getElem?_cons_zero, Option.some.injEq] at hx
        subst hx
        exact absurd hm (by simp [h])
      | succ n =>
        simp only [List.getElem?_cons_succ] at hx ⊢
        exact hx
    · have e1 : replaceFirstLine k r (a :: tail) = a :: replaceFirstLine k r tail := by
        simp [replaceFirstLine, hm]
      rw [e1]
      cases i with
      | zero => simpa using hx
      | succ n =>
        simp only [List.getElem?_cons_succ] at hx ⊢
        exact ih n hx

theorem getElem?_replaceFirstLine_unique (k r x : List Char) (ls : List (List Char))
    (i : Nat) (hx : ls[i]? = some x) (hm : lineMatchKey k x = true)
    (hcnt : ls.countP (lineMatchKey k) = 1) :
    (replaceFirstLine k r ls)[i]? = some r := by
  induction ls generalizing i with
  | nil => simp at hx
  | cons a tail ih =>
    by_cases hma : lineMatchKey k a = true
    · have e1 : replaceFirstLine k r (a :: tail) = r :: tail := by
        simp [replaceFirstLine, hma]
      rw [e1]
      cases i with
      | zero => simp
      | succ n =>
        exfalso
        simp only [List.getElem?_cons_succ] at hx
        have hmem : x ∈ tail := List.getElem?_mem hx
        have hpos : 0 < tail.countP (lineMatchKey k) :=
          List.countP_pos_iff.mpr ⟨x, hmem, hm⟩
        rw [List.countP_cons, if_pos hma] at hcnt
        omega
    · have e1 : replaceFirstLine k r (a :: tail) = a :: replaceFirstLine k r tail := by
        simp [replaceFirstLine, hma]
      rw [e1]
      cases i with
      | zero =>
        simp only [List.getElem?_cons_zero, Option.some.injEq] at hx
        subst hx
        exact absurd hm (by simp [hma])
      | succ n =>
        simp only [List.getElem?_cons_succ] at hx ⊢
        have hcnt' : tail.countP (lineMatchKey k) = 1 := by
          rw [List.countP_cons, if_neg hma] at hcnt
          omega
        exact ih n hx hcnt'

theorem mem_replaceFirstLine (k r : List Char) (ls : List (List Char)) (l : List Char) :
    l ∈ replaceFirstLine k r ls → l ∈ ls ∨ l = r := by
  induction ls with
  | nil => intro h; simp [replaceFirstLine] at h
  | cons a tail ih =>
    intro h
    by_cases hm : lineMatchKey k a = true
    · rw [show replaceFirstLine k r (a :: tail) = r :: tail from by
        simp [replaceFirstLine, hm]] at h
      rcases List.mem_cons.mp h with rfl | h
      · exact Or.inr rfl
      · exact Or.inl (List.mem_cons_of_mem _ h)
    · rw [show replaceFirstLine k r (a :: tail) = a :: replaceFirstLine k r tail from by
        simp [replaceFirstLine, hm]] at h
      rcases List.mem_cons.mp h with rfl | h
      · exact Or.inl (List.mem_cons_self _ _)
      · rcases ih h with h' | h'
        · exact Or.inl (List.mem_cons_of_mem _ h')
        · exact Or.inr h'

theorem linesUpdate_length_ge (ls : List (List Char)) (kv : List Char × List Char) :
    ls.length ≤ (linesUpdate ls kv).length := by
  unfold linesUpdate
  by_cases h : ls.any (lineMatchKey kv.1) = true
  · simp [h, length_replaceFirstLine]
  · simp [h]

theorem mem_linesUpdate (ls : List (List Char)) (kv : List Char × List Char)
    (l : List Char) (h : l ∈ linesUpdate ls kv) : l ∈ ls ∨ l = kv.1 ++ '=' :: kv.2 := by
  unfold linesUpdate at h
  by_cases hm : ls.any (lineMatchKey kv.1) = true
  · rw [if_pos hm] at h
    exact mem_replaceFirstLine _ _ _ _ h
  · rw [if_neg hm] at h
    rcases List.mem_append.mp h with h | h
    · exact Or.inl h
    · simp only [List.mem_singleton] at h
      exact Or.inr h

theorem linesUpdate_ne_nil (ls : List (List Char)) (kv : List Char × List Char)
    (h : ls ≠ []) : linesUpdate ls kv ≠ [] := by
  have h1 : 0 < ls.length := List.length_pos.mpr h
  have h2 : 0 < (linesUpdate ls kv).length :=
    lt_of_lt_of_le h1 (linesUpdate_length_ge ls kv)
  exact List.length_pos.mp h2

theorem getElem?_lt_length {α : Type} (ls : List α) (i : Nat) (x : α)
    (hx : ls[i]? = some x) : i < ls.length := by
  by_contra h
  rw [List.getElem?_eq_none (Nat.le_of_not_lt h)] at hx
  cases hx

theorem getElem?_linesUpdate_of_not (ls : List (List Char))
    (kv : List Char × List Char) (i : Nat) (x : List Char)
    (hx : ls[i]? = some x) (h : lineMatchKey kv.1 x = false) :
    (linesUpdate ls kv)[i]? = some x := by
  unfold linesUpdate
  by_cases hm : ls.any (lineMatchKey kv.1) = true
  · rw [if_pos hm]
    exact getElem?_replaceFirstLine_of_not _ _ _ _ _ hx h
  · rw [if_neg hm, List.getElem?_append_left (getElem?_lt_length ls i x hx)]
    exact hx

theorem cnt_linesUpdate_self (ls : List (List Char)) (kv : List Char × List Char)
    (hself : lineMatchKey kv.1 (kv.1 ++ '=' :: kv.2) = true)
    (hcnt : ls.countP (lineMatchKey kv.1) = 1) :
    (linesUpdate ls kv).countP (lineMatchKey kv.1) = 1 := by
  have hany : ls.any (lineMatchKey kv.1) = true := by
    rw [List.any_eq_true]
    obtain ⟨x, hx, hpx⟩ := List.countP_pos_iff.mp (by omega :
      0 < ls.countP (lineMatchKey kv.1))
    exact ⟨x, hx, hpx⟩
  unfold linesUpdate
  rw [if_pos hany, cnt_replaceFirstLine_self _ _ _ hself, hcnt]

theorem cnt_linesUpdate_other (ls : List (List Char)) (kv : List Char × List Char)
    (k' : List Char) (hd : keysDisjoint kv.1 k' = true)
    (hself : lineMatchKey kv.1 (kv.1 ++ '=' :: kv.2) = true) :
    (linesUpdate ls kv).countP (lineMatchKey k') = ls.countP (lineMatchKey k') := by
  have hr' : lineMatchKey k' (kv.1 ++ '=' :: kv.2) = false :=
    lineMatchKey_unique kv.1 k' _ hd hself
  unfold linesUpdate
  by_cases hm : ls.any (lineMatchKey kv.1) = true
  · rw [if_pos hm, cnt_replaceFirstLine_other _ _ _ _ hd hr']
  · rw [if_neg hm, List.countP_append]
    simp [List.countP_cons, hr']

theorem linesUpdate_append_of_cnt_zero (ls : List (List Char))
    (kv : List Char × List Char) (hcnt : ls.countP (lineMatchKey kv.1) = 0) :
    linesUpdate ls kv = ls ++ [kv.1 ++ '=' :: kv.2] := by
  have hnot : ¬ls.any (lineMatchKey kv.1) = true := by
    rw [List.any_eq_true]
    rintro ⟨x, hx, hpx⟩
    have : 0 < ls.countP (lineMatchKey kv.1) := List.countP_pos_iff.mpr ⟨x, hx, hpx⟩
    omega
  unfold linesUpdate
  rw [if_neg hnot]

theorem fold_length_ge (ups : List (List Char × List Char)) :
    ∀ ls : List (List Char), ls.length ≤ (List.foldl linesUpdate ls ups).length := by
  induction ups with
  | nil => intro ls; simp
  | cons kv rest ih =>
    intro ls
    rw [List.foldl_cons]
    exact le_trans (linesUpdate_length_ge ls kv) (ih _)

theorem fold_getElem?_of_not (ups : List (List Char × List Char)) :
    ∀ (ls : List (List Char)) (i : Nat) (x : List Char), ls[i]? = some x →
    (∀ kv ∈ ups, lineMatchKey kv.1 x = false) →
    (List.foldl linesUpdate ls ups)[i]? = some x := by
  induction ups with
  | nil => intro ls i x hx _; exact hx
  | cons kv rest ih =>
    intro ls i x hx h
    rw [List.foldl_cons]
    exact ih _ i x
      (getElem?_linesUpdate_of_not ls kv i x hx (h kv (List.mem_cons_self _ _)))
      (fun kv' hkv' => h kv' (List.mem_cons_of_mem _ hkv'))

theorem fold_cnt_preserved (ups : List (List Char × List Char)) (k : List Char) :
    ∀ ls : List (List Char),
    (∀ kv ∈ ups, keysDisjoint kv.1 k = true ∧
      lineMatchKey kv.1 (kv.1 ++ '=' :: kv.2) = true) →
    (List.foldl linesUpdate ls ups).countP (lineMatchKey k) =
      ls.countP (lineMatchKey k) := by
  induction ups with
  | nil => intro ls _; rfl
  | cons kv rest ih =>
    intro ls h
    obtain ⟨hd, hself⟩ := h kv (List.mem_cons_self _ _)
    rw [List.foldl_cons, ih _ (fun kv' hkv' => h kv' (List.mem_cons_of_mem _ hkv')),
      cnt_linesUpdate_other ls kv k hd hself]

theorem fold_mem (ups : List (List Char × List Char)) :
    ∀ (ls : List (List Char)) (l : List Char), l ∈ List.foldl linesUpdate ls ups →
    l ∈ ls ∨ ∃ kv ∈ ups, l = kv.1 ++ '=' :: kv.2 := by
  induction ups with
  | nil => intro ls l h; exact Or.inl h
  | cons kv rest ih =>
    intro ls l h
    rw [List.foldl_cons] at h
    rcases ih _ l h with h' | ⟨kv', hkv', rfl⟩
    · rcases mem_linesUpdate ls kv l h' with h'' | rfl
      · exact Or.inl h''
      · exact Or.inr ⟨kv, List.mem_cons_self _ _, rfl⟩
    · exact Or.inr ⟨kv', List.mem_cons_of_mem _ hkv', rfl⟩

theorem applyUpdate_joinNL (ls : List (List Char)) (kv : List Char × List Char)
    (hne : ls ≠ []) (hwf : ∀ l ∈ ls, '\n' ∉ l) :
    applyUpdate (joinNL ls) kv = joinNL (linesUpdate ls kv) := by
  unfold applyUpdate linesUpdate
  rw [splitNL_joinNL ls hne hwf]
  by_cases h : ls.any (lineMatchKey kv.1) = true
  · rw [if_pos h, if_pos h]
  · rw [if_neg h, if_neg h, joinNL_append_singleton _ _ hne]

theorem applyAllUpdates_joinNL (ups : List (List Char × List Char)) :
    ∀ ls : List (List Char), ls ≠ [] → (∀ l ∈ ls, '\n' ∉ l) →
    (∀ kv ∈ ups, '\n' ∉ kv.1 ++ '=' :: kv.2) →
    applyAllUpdates (joinNL ls) ups = joinNL (List.foldl linesUpdate ls ups) := by
  induction ups with
  | nil => intro ls _ _ _; rfl
  | cons kv rest ih =>
    intro ls hne hwf hups
    have hstep : applyAllUpdates (joinNL ls) (kv :: rest) =
        applyAllUpdates (applyUpdate (joinNL ls) kv) rest := rfl
    rw [hstep, applyUpdate_joinNL ls kv hne hwf]
    have hne' : linesUpdate ls kv ≠ [] := linesUpdate_ne_nil ls kv hne
    have hwf' : ∀ l ∈ linesUpdate ls kv, '\n' ∉ l := by
      intro l hl
      rcases mem_linesUpdate ls kv l hl with h | rfl
      · exact hwf l h
      · exact hups kv (List.mem_cons_self _ _)
    rw [ih (linesUpdate ls kv) hne' hwf'
      (fun kv' h => hups kv' (List.mem_cons_of_mem _ h))]
    rfl

theorem getElem?_append_last {α : Type} (ls : List α) (e : α) :
    (ls ++ [e])[ls.length]? = some e := by
  induction ls with
  | nil => rfl
  | cons a tail ih =>
    simp only [List.cons_append, List.length_cons, List.getElem?_cons_succ]
    exact ih

/-- The combined effect of an update script that replaces key `k₁`
in place (unique pre-existing match) and appends key `k₂` (no
pre-existing match), with arbitrary other updates `A` before and `B`
after the `k₂` step, none of which interfere with `k₁`, `k₂`, or the two
written entries. -/
theorem fold_replace_append (F ls : List (List Char)) (k₁ v₁ k₂ v₂ : List Char)
    (A B : List (List Char × List Char)) (i : Nat) (x₁ : List Char)
    (hx : ls[i]? = some x₁)
    (hm1 : lineMatchKey k₁ x₁ = true)
    (hc1 : ls.countP (lineMatchKey k₁) = 1)
    (hc2 : ls.countP (lineMatchKey k₂) = 0)
    (hself1 : lineMatchKey k₁ (k₁ ++ '=' :: v₁) = true)
    (hself2 : lineMatchKey k₂ (k₂ ++ '=' :: v₂) = true)
    (hd12 : keysDisjoint k₂ k₁ = true)
    (hd21 : keysDisjoint k₁ k₂ = true)
    (hA : ∀ kv ∈ A, keysDisjoint kv.1 k₁ = true ∧ keysDisjoint kv.1 k₂ = true ∧
      lineMatchKey kv.1 (kv.1 ++ '=' :: kv.2) = true ∧
      lineMatchKey kv.1 (k₁ ++ '=' :: v₁) = false)
    (hB : ∀ kv ∈ B, keysDisjoint kv.1 k₁ = true ∧ keysDisjoint kv.1 k₂ = true ∧
      lineMatchKey kv.1 (kv.1 ++ '=' :: kv.2) = true ∧
      lineMatchKey kv.1 (k₁ ++ '=' :: v₁) = false ∧
      lineMatchKey kv.1 (k₂ ++ '=' :: v₂) = false)
    (hF : F = List.foldl linesUpdate
      (linesUpdate (List.foldl linesUpdate (linesUpdate ls (k₁, v₁)) A) (k₂, v₂)) B) :
    F.countP (lineMatchKey k₁) = 1
    ∧ F.countP (lineMatchKey k₂) = 1
    ∧ ls.length ≤ F.length
    ∧ F[i]? = some (k₁ ++ '=' :: v₁)
    ∧ ∃ j, ls.length ≤ j ∧ F[j]? = some (k₂ ++ '=' :: v₂) := by
  subst hF
  have hany1 : ls.any (lineMatchKey k₁) = true := by
    rw [List.any_eq_true]
    exact ⟨x₁, List.getElem?_mem hx, hm1⟩
  have hls1 : linesUpdate ls (k₁, v₁) = replaceFirstLine k₁ (k₁ ++ '=' :: v₁) ls := by
    unfold linesUpdate
    rw [if_pos hany1]
  have hget1 : (linesUpdate ls (k₁, v₁))[i]? = some (k₁ ++ '=' :: v₁) := by
    rw [hls1]
    exact getElem?_replaceFirstLine_unique _ _ _ _ _ hx hm1 hc1
  have hcnt1 : (linesUpdate ls (k₁, v₁)).countP (lineMatchKey k₁) = 1 :=
    cnt_linesUpdate_self ls (k₁, v₁) hself1 hc1
  have hred1 : (linesUpdate ls (k₁, v₁)).countP (lineMatchKey k₂) = 0 := by
    rw [cnt_linesUpdate_other ls (k₁, v₁) k₂ hd21 hself1]
    exact hc2
  have hlen1 : ls.length ≤ (linesUpdate ls (k₁, v₁)).length :=
    linesUpdate_length_ge _ _
  have hcntA : (List.foldl linesUpdate (linesUpdate ls (k₁, v₁)) A).countP
      (lineMatchKey k₁) = 1 := by
    rw [fold_cnt_preserved A k₁ _ (fun kv hkv => ⟨(hA kv hkv).1, (hA kv hkv).2.2.1⟩)]
    exact hcnt1
  have hredA : (List.foldl linesUpdate (linesUpdate ls (k₁, v₁)) A).countP
      (lineMatchKey k₂) = 0 := by
    rw [fold_cnt_preserved A k₂ _ (fun kv hkv => ⟨(hA kv hkv).2.1, (hA kv hkv).2.2.1⟩)]
    exact hred1
  have hgetA : (List.foldl linesUpdate (linesUpdate ls (k₁, v₁)) A)[i]? =
      some (k₁ ++ '=' :: v₁) :=
    fold_getElem?_of_not A _ i _ hget1 (fun kv hkv => (hA kv hkv).2.2.2)
  have hlenA : ls.length ≤ (List.foldl linesUpdate (linesUpdate ls (k₁, v₁)) A).length :=
    le_trans hlen1 (fold_length_ge A _)
  have hls3 : linesUpdate (List.foldl linesUpdate (linesUpdate ls (k₁, v₁)) A) (k₂, v₂) =
      (List.foldl linesUpdate (linesUpdate ls (k₁, v₁)) A) ++ [k₂ ++ '=' :: v₂] :=
    linesUpdate_append_of_cnt_zero _ _ hredA
  have he21 : lineMatchKey k₁ (k₂ ++ '=' :: v₂) = false :=
    lineMatchKey_unique k₂ k₁ _ hd12 hself2
  have hcnt3 : (linesUpdate (List.foldl linesUpdate (linesUpdate ls (k₁, v₁)) A)
      (k₂, v₂)).countP (lineMatchKey k₁) = 1 := by
    rw [hls3, List.countP_append]
    simp [List.countP_cons, he21, hcntA]
  have hred3 : (linesUpdate (List.foldl linesUpdate (linesUpdate ls (k₁, v₁)) A)
      (k₂, v₂)).countP (lineMatchKey k₂) = 1 := by
    rw [hls3, List.countP_append]
    simp [List.countP_cons, hself2, hredA]
  have hget3 : (linesUpdate (List.foldl linesUpdate (linesUpdate ls (k₁, v₁)) A)
      (k₂, v₂))[i]? = some (k₁ ++ '=' :: v₁) := by
    rw [hls3, List.getElem?_append_left (getElem?_lt_length _ i _ hgetA)]
    exact hgetA
  have hj3 : (linesUpdate (List.foldl linesUpdate (linesUpdate ls (k₁, v₁)) A)
      (k₂, v₂))[(List.foldl linesUpdate (linesUpdate ls (k₁, v₁)) A).length]? =
      some (k₂ ++ '=' :: v₂) := by
    rw [hls3]
    exact getElem?_append_last _ _
  have hlen3 : ls.length ≤ (linesUpdate (List.foldl linesUpdate
      (linesUpdate ls (k₁, v₁)) A) (k₂, v₂)).length := by
    rw [hls3, List.length_append]
    omega
  refine ⟨?_, ?_, ?_, ?_, ?_⟩
  · rw [fold_cnt_preserved B k₁ _ (fun kv hkv => ⟨(hB kv hkv).1, (hB kv hkv).2.2.1⟩)]
    exact hcnt3
  · rw [fold_cnt_preserved B k₂ _ (fun kv hkv => ⟨(hB kv hkv).2.1, (hB kv hkv).2.2.1⟩)]
    exact hred3
  · exact le_trans hlen3 (fold_length_ge B _)
  · exact fold_getElem?_of_not B _ i _ hget3 (fun kv hkv => (hB kv hkv).2.2.2.1)
  · exact ⟨(List.foldl linesUpdate (linesUpdate ls (k₁, v₁)) A).length, hlenA,
      fold_getElem?_of_not B _ _ _ hj3 (fun kv hkv => (hB kv hkv).2.2.2.2)⟩

set_option maxHeartbeats 1600000 in
/-- C7: after a successful `warden env init`, the initializer rewrites
the generated `.env` through the fixed update list.  For a file whose
lines contain exactly one `PHP_VERSION` line, `PHP_VERSION=8.1`, and no
`REDIS_VERSION` line, initializing with `php_version "8.3"` and
`redis_version "7.2"`: the content written back is the update pass over
the file; the result has exactly one `PHP_VERSION` line, namely
`PHP_VERSION=8.3`, at the same line index as before (replaced in place,
not appended); exactly one `REDIS_VERSION` line, `REDIS_VERSION=7.2`,
at an index at or beyond the original line count (appended); and every
line matching none of the fixed update keys is left unchanged at its
index. -/
theorem claim7_initProject (lines : List (List Char)) (i : Nat)
    (hne : lines ≠ []) (hwf : ∀ l ∈ lines, '\n' ∉ l)
    (hphp : lines[i]? = some "PHP_VERSION=8.1".data)
    (hcount : lines.countP (lineMatchKey "PHP_VERSION".data) = 1)
    (hredis : lines.countP (lineMatchKey "REDIS_VERSION".data) = 0)
    (res : String → String) (fs : String → Bool) (stub : Stub)
    (readEnv : String → List Char) (p pn : String) (r : CommandResult)
    (hstub : stub ["env", "init", pn, "magento2"] = SpawnOutcome.ok r)
    (hr : r.code = 0)
    (hfs : fs (pjoin (res p) ".env") = true)
    (hread : readEnv (pjoin (res p) ".env") = joinNL lines) :
    (initProject res fs stub readEnv
        { project_path := some p, project_name := some pn,
          php_version := some "8.3", redis_version := some "7.2" }).written =
      some (applyAllUpdates (joinNL lines) (updatesOf envUpdateParams))
    ∧ (splitNL (applyAllUpdates (joinNL lines) (updatesOf envUpdateParams))).countP
        (lineMatchKey "PHP_VERSION".data) = 1
    ∧ (splitNL (applyAllUpdates (joinNL lines) (updatesOf envUpdateParams))).countP
        (lineMatchKey "REDIS_VERSION".data) = 1
    ∧ lines.length ≤
        (splitNL (applyAllUpdates (joinNL lines) (updatesOf envUpdateParams))).length
    ∧ (splitNL (applyAllUpdates (joinNL lines) (updatesOf envUpdateParams)))[i]? =
        some "PHP_VERSION=8.3".data
    ∧ (∃ j, lines.length ≤ j ∧
        (splitNL (applyAllUpdates (joinNL lines) (updatesOf envUpdateParams)))[j]? =
          some "REDIS_VERSION=7.2".data)
    ∧ (∀ (j : Nat) (x : List Char), lines[j]? = some x →
        (∀ kv ∈ updatesOf envUpdateParams, lineMatchKey kv.1 x = false) →
        (splitNL (applyAllUpdates (joinNL lines) (updatesOf envUpdateParams)))[j]? =
          some x) := by
  have hwritten : (initProject res fs stub readEnv
      { project_path := some p, project_name := some pn,
        php_version := some "8.3", redis_version := some "7.2" }).written =
      some (applyAllUpdates (joinNL lines) (updatesOf envUpdateParams)) := by
    have hrc : runnerCall stub [some "env", some "init", some pn, some "magento2"] =
        SpawnOutcome.ok r := by
      simp only [runnerCall, seqArgs, Option.map]
      exact hstub
    simp only [initProject, Option.getD]
    rw [hrc]
    simp [hr, hfs, hread]
    rfl
  have hentries : ∀ kv ∈ updatesOf envUpdateParams, '\n' ∉ kv.1 ++ '=' :: kv.2 := by
    decide
  have hbridge : applyAllUpdates (joinNL lines) (updatesOf envUpdateParams) =
      joinNL (List.foldl linesUpdate lines (updatesOf envUpdateParams)) :=
    applyAllUpdates_joinNL _ lines hne hwf hentries
  have hfoldne : List.foldl linesUpdate lines (updatesOf envUpdateParams) ≠ [] := by
    have h1 : 0 < lines.length := List.length_pos.mpr hne
    exact List.length_pos.mp
      (lt_of_lt_of_le h1 (fold_length_ge (updatesOf envUpdateParams) lines))
  have hfoldwf : ∀ l ∈ List.foldl linesUpdate lines (updatesOf envUpdateParams),
      '\n' ∉ l := by
    intro l hl
    rcases fold_mem (updatesOf envUpdateParams) lines l hl with h | ⟨kv, hkv, rfl⟩
    · exact hwf l h
    · exact hentries kv hkv
  have hres : splitNL (applyAllUpdates (joinNL lines) (updatesOf envUpdateParams)) =
      List.foldl linesUpdate lines (updatesOf envUpdateParams) := by
    rw [hbridge, splitNL_joinNL _ hfoldne hfoldwf]
  have hU : updatesOf envUpdateParams =
      ("PHP_VERSION".data, "8.3".data) ::
        ([("MYSQL_DISTRIBUTION".data, "mariadb".data),
          ("MYSQL_DISTRIBUTION_VERSION".data, "10.6".data),
          ("NODE_VERSION".data, "20".data),
          ("COMPOSER_VERSION".data, "2".data),
          ("OPENSEARCH_VERSION".data, "2.12".data)] ++
         ("REDIS_VERSION".data, "7.2".data) ::
         [("WARDEN_REDIS".data, "1".data),
          ("WARDEN_OPENSEARCH".data, "1".data),
          ("WARDEN_VARNISH".data, "1".data),
          ("WARDEN_RABBITMQ".data, "1".data),
          ("PHP_XDEBUG_3".data, "1".data)]) := by decide
  have hdec : List.foldl linesUpdate lines (updatesOf envUpdateParams) =
      List.foldl linesUpdate
        (linesUpdate
          (List.foldl linesUpdate
            (linesUpdate lines ("PHP_VERSION".data, "8.3".data))
            [("MYSQL_DISTRIBUTION".data, "mariadb".data),
             ("MYSQL_DISTRIBUTION_VERSION".data, "10.6".data),
             ("NODE_VERSION".data, "20".data),
             ("COMPOSER_VERSION".data, "2".data),
             ("OPENSEARCH_VERSION".data, "2.12".data)])
          ("REDIS_VERSION".data, "7.2".data))
        [("WARDEN_REDIS".data, "1".data),
         ("WARDEN_OPENSEARCH".data, "1".data),
         ("WARDEN_VARNISH".data, "1".data),
         ("WARDEN_RABBITMQ".data, "1".data),
         ("PHP_XDEBUG_3".data, "1".data)] := by
    rw [hU, List.foldl_cons, List.foldl_append, List.foldl_cons]
  obtain ⟨hc1', hc2', hlen', hget', j, hjge, hjget⟩ :=
    fold_replace_append (List.foldl linesUpdate lines (updatesOf envUpdateParams)) lines
      "PHP_VERSION".data "8.3".data "REDIS_VERSION".data "7.2".data
      [("MYSQL_DISTRIBUTION".data, "mariadb".data),
       ("MYSQL_DISTRIBUTION_VERSION".data, "10.6".data),
       ("NODE_VERSION".data, "20".data),
       ("COMPOSER_VERSION".data, "2".data),
       ("OPENSEARCH_VERSION".data, "2.12".data)]
      [("WARDEN_REDIS".data, "1".data),
       ("WARDEN_OPENSEARCH".data, "1".data),
       ("WARDEN_VARNISH".data, "1".data),
       ("WARDEN_RABBITMQ".data, "1".data),
       ("PHP_XDEBUG_3".data, "1".data)]
      i "PHP_VERSION=8.1".data hphp (by decide) hcount hredis (by decide) (by decide)
      (by decide) (by decide) (by decide) (by decide) hdec
  have hent1 : "PHP_VERSION".data ++ '=' :: "8.3".data = "PHP_VERSION=8.3".data := by
    decide
  have hent2 : "REDIS_VERSION".data ++ '=' :: "7.2".data = "REDIS_VERSION=7.2".data := by
    decide
  refine ⟨hwritten, ?_, ?_, ?_, ?_, ⟨j, hjge, ?_⟩, ?_⟩
  · rw [hres]; exact hc1'
  · rw [hres]; exact hc2'
  · rw [hres]; exact hlen'
  · rw [hres]; rw [← hent1]; exact hget'
  · rw [hres]; rw [← hent2]; exact hjget
  · intro j' x hx hall
    rw [hres]
    exact fold_getElem?_of_not (updatesOf envUpdateParams) lines j' x hx hall

set_option maxHeartbeats 1600000 in
/-- Witness for C7 on a concrete two-line `.env` file. -/
theorem claim7_witness :
    (initProject id (fun _ => true) (fun _ => SpawnOutcome.ok ⟨"done", "", 0⟩)
        (fun _ => "PHP_VERSION=8.1\nUNRELATED=x".data)
        { project_path := some "/p", project_name := some "demo",
          php_version := some "8.3", redis_version := some "7.2" }).written =
      some (applyAllUpdates (joinNL ["PHP_VERSION=8.1".data, "UNRELATED=x".data])
        (updatesOf envUpdateParams))
    ∧ (splitNL (applyAllUpdates (joinNL ["PHP_VERSION=8.1".data, "UNRELATED=x".data])
        (updatesOf envUpdateParams))).countP (lineMatchKey "PHP_VERSION".data) = 1
    ∧ (splitNL (applyAllUpdates (joinNL ["PHP_VERSION=8.1".data, "UNRELATED=x".data])
        (updatesOf envUpdateParams))).countP (lineMatchKey "REDIS_VERSION".data) = 1
    ∧ (splitNL (applyAllUpdates (joinNL ["PHP_VERSION=8.1".data, "UNRELATED=x".data])
        (updatesOf envUpdateParams)))[0]? = some "PHP_VERSION=8.3".data := by
  have h := claim7_initProject ["PHP_VERSION=8.1".data, "UNRELATED=x".data] 0
    (by decide) (by decide) (by decide) (by decide) (by decide)
    id (fun _ => true) (fun _ => SpawnOutcome.ok ⟨"done", "", 0⟩)
    (fun _ => "PHP_VERSION=8.1\nUNRELATED=x".data) "/p" "demo" ⟨"done", "", 0⟩
    rfl rfl rfl (by decide)
  exact ⟨h.1, h.2.1, h.2.2.1, h.2.2.2.2.1⟩

end Warden
